import Mathlib

/-!
Shallow embedding of the prediction-and-ranking core of the college
predictor service (src/index.js), together with proofs that settle the
frozen claims about its specification.

JS numbers that can only hold exact integral/decimal data are modelled as
rationals; `null`/`NaN`-able values are modelled with `Option`.  The
probability estimator uses `Math.exp`, so it is modelled over the reals.
`Array.prototype.sort` (stable in the engines the service runs on) is
modelled by a stable insertion sort parameterised by the boolean relation
"comparator result is non-positive".
-/

/-- Stable insertion of an element into a list: the element is placed
before the first member b with le a b, hence before every member it ties
with that occurred later in the original order. -/
def jsInsert {α : Type} (le : α → α → Bool) (a : α) : List α → List α
  | [] => [a]
  | b :: t => if le a b then a :: b :: t else b :: jsInsert le a t

/-- Stable sort modelling JS Array.prototype.sort with comparator cmp,
instantiated with le a b := (cmp a b ≤ 0). -/
def jsSortBy {α : Type} (le : α → α → Bool) : List α → List α
  | [] => []
  | a :: t => jsInsert le a (jsSortBy le t)

/-- One historical cutoff record as consumed by the prediction pipeline:
year, counselling round, and the (nullable) closing rank. -/
structure HistEntry where
  year : Int
  round : Int
  closeRank : Option ℚ
deriving DecidableEq

/-- Comparator (a, b) => b.year !== a.year ? b.year - a.year : b.round - a.round
used on the fetched history rows (descending year, then descending round). -/
def cmpYearRoundDesc (a b : HistEntry) : Int :=
  if b.year ≠ a.year then b.year - a.year else b.round - a.round

/-- Scan of the (year desc, round desc)-sorted history keeping, for each not
yet seen year, the first record with a non-null closing rank; embeds the
for-loop building latestRoundCutoffsPerYear in POST /filter. -/
def latestRoundScan : List HistEntry → List Int → List HistEntry
  | [], _ => []
  | h :: t, seen =>
    if h.closeRank.isSome ∧ h.year ∉ seen then
      h :: latestRoundScan t (h.year :: seen)
    else
      latestRoundScan t seen

/-- The cutoff aggregator of POST /filter: sort all rows of one program by
(year desc, round desc) and keep the latest valid round per year. -/
def latestRoundCutoffsPerYear (rows : List HistEntry) : List HistEntry :=
  latestRoundScan (jsSortBy (fun a b => decide (cmpYearRoundDesc a b ≤ 0)) rows) []

/-- Recency weights [1.0, 0.85, 0.7, 0.55, 0.4] of calculatePredictionDetails. -/
def recencyWeights : List ℚ := [1, 0.85, 0.7, 0.55, 0.4]

/-- recencyWeights[index] || 0.3 (all listed weights are nonzero, so the JS
fallback only fires past the end of the list). -/
def weightAt (i : ℕ) : ℚ := recencyWeights.getD i 0.3

/-- The forEach accumulation over historicalCutoffs.slice(0, 5): returns
(weightedRankSum, totalWeight), starting at position index i. -/
def weightedSums : List HistEntry → ℕ → ℚ × ℚ
  | [], _ => (0, 0)
  | h :: t, i =>
    let rest := weightedSums t (i + 1)
    match h.closeRank with
    | some r => (r * weightAt i + rest.1, weightAt i + rest.2)
    | none => rest

/-- Momentum adjustment block of calculatePredictionDetails: given the
(year-desc) sorted cutoffs and the base projection, nudge the projection by
at most 10 percent when the two most recent years moved by more than 3
percent relative change. -/
def momentumAdjusted (sorted : List HistEntry) (base : ℚ) : ℚ :=
  match sorted with
  | latest :: previous :: _ =>
    match latest.closeRank, previous.closeRank with
    | some lr, some pr =>
      if 0 < pr then
        let change := lr - pr
        let relativeChange := change / pr
        if 0.03 < |relativeChange| then
          let adjustment : ℚ :=
            if change < 0 then base * max (-(0.10 : ℚ)) (relativeChange * 0.5)
            else if 0 < change then base * min (0.10 : ℚ) (relativeChange * 0.5)
            else 0
          base + adjustment
        else base
      else base
    | _, _ => base
  | _ => base

/-- Rounding to three decimals, the effect of +p.toFixed(3) on the values at
stake (round to nearest thousandth). -/
noncomputable def toFixed3 (x : ℝ) : ℝ := ((round (1000 * x) : ℤ) : ℝ) / 1000

/-- Rounding to two decimals, the effect of +p.toFixed(2). -/
noncomputable def toFixed2 (x : ℝ) : ℝ := ((round (100 * x) : ℤ) : ℝ) / 100

open Classical in
/-- getProbabilityAgainstTarget(userRank, targetRank): 0.01 on degenerate
input (NaN ranks, modelled as none, or non-positive target), 0.98 at or
below the target, exponential decay clamped to [0.01, 0.90] and rounded to
three decimals beyond it. -/
noncomputable def getProbabilityAgainstTarget (userRank targetRank : Option ℝ) : ℝ :=
  match userRank, targetRank with
  | none, _ => 0.01
  | _, none => 0.01
  | some u, some t =>
    if t ≤ 0 then 0.01
    else if u ≤ t then 0.98
    else
      let diff := u - t
      let k := max 500 (t * 0.25)
      let probability := 0.90 * Real.exp (-diff / k)
      toFixed3 (max 0.01 (min probability 0.90))

/-- calculateStandardDeviation(values): population standard deviation, 0 for
an empty list. -/
noncomputable def calculateStandardDeviation (values : List ℝ) : ℝ :=
  if values = [] then 0
  else
    let n : ℝ := values.length
    let mean := values.sum / n
    let variance := (values.map (fun b => (b - mean) ^ 2)).sum / n
    Real.sqrt variance

open Classical in
/-- getBaseRecommendation(probability). -/
noncomputable def getBaseRecommendation (probability : ℝ) : String :=
  if 0.95 ≤ probability then "Excellent chance"
  else if 0.80 ≤ probability then "Very good chance"
  else if 0.60 ≤ probability then "Good chance"
  else if 0.40 ≤ probability then "Reasonable chance"
  else if 0.20 ≤ probability then "Moderate chance"
  else if 0.10 ≤ probability then "Low chance"
  else if 0.05 ≤ probability then "Very low chance"
  else "Extremely low chance"

/-- getRecommendationMessage(probability, confidence). -/
noncomputable def getRecommendationMessage (probability : ℝ) (confidence : String) : String :=
  let baseMessage := getBaseRecommendation probability
  if confidence = "none" then "No historical data to estimate probability."
  else if confidence = "very low" then
    baseMessage ++ " (Prediction confidence: Very Low due to limited/inconsistent data.)"
  else if confidence = "low" then
    baseMessage ++ " (Prediction confidence: Low due to data limitations.)"
  else if confidence = "medium" then baseMessage ++ " (Prediction confidence: Medium.)"
  else if confidence = "high" then baseMessage ++ " (Prediction confidence: High.)"
  else if confidence = "very high" then baseMessage ++ " (Prediction confidence: Very High.)"
  else baseMessage

/-- Result record of calculatePredictionDetails (the display-only
historicalDataForDisplay field is omitted; no claim concerns it). -/
structure PredictionResult where
  projectedRank : Option ℚ
  probability : ℝ
  confidence : String
  message : String
  recommendation : String

open Classical in
/-- Confidence mapping of calculatePredictionDetails from the number of
valid historical points and the relative standard deviation. -/
noncomputable def confidenceFor (nPoints : ℕ) (relativeStdDev : ℝ) : String :=
  if 4 ≤ nPoints then
    if relativeStdDev < 0.10 then "very high"
    else if relativeStdDev < 0.15 then "high"
    else if relativeStdDev < 0.25 then "medium"
    else "low"
  else if nPoints = 3 then
    if relativeStdDev < 0.15 then "high"
    else if relativeStdDev < 0.20 then "medium"
    else "low"
  else if nPoints = 2 then
    if relativeStdDev < 0.20 then "medium"
    else "low"
  else "very low"

open Classical in
/-- Main branch of calculatePredictionDetails, taking the already sorted
cutoffs with nonzero total weight: weighted projection, momentum, floor at
1 and round, probability against the projection, and the confidence table
on the number of valid points and the relative standard deviation. -/
noncomputable def mainPrediction (userRank : Option ℚ) (sorted : List HistEntry) : PredictionResult :=
  let ws := weightedSums (sorted.take 5) 0
  let baseProjection := ws.1 / ws.2
  let adjusted := momentumAdjusted sorted baseProjection
  let projected : ℤ := max 1 (round adjusted)
  let finalProbability :=
    getProbabilityAgainstTarget (userRank.map (fun q : ℚ => (q : ℝ))) (some ((projected : ℚ) : ℝ))
  let ranksForConfidence := sorted.filterMap (fun h => h.closeRank)
  let stdDevHistRanks := calculateStandardDeviation (ranksForConfidence.map (fun q : ℚ => (q : ℝ)))
  let relativeStdDev : ℝ :=
    if 0 < ranksForConfidence.length ∧ (0 : ℤ) < projected then
      stdDevHistRanks / ((projected : ℚ) : ℝ)
    else 1
  let nPoints := ranksForConfidence.length
  let confidence : String := confidenceFor nPoints relativeStdDev
  { projectedRank := some ((projected : ℚ)),
    probability := toFixed2 finalProbability,
    confidence := confidence,
    message := getRecommendationMessage finalProbability confidence,
    recommendation := getBaseRecommendation finalProbability }

/-- calculatePredictionDetails(userRankInput, historicalCutoffs): the two
guard returns (no data at all; no valid weight) followed by the main
projection branch on the year-desc sorted list. -/
noncomputable def calculatePredictionDetails (userRankInput : Option ℚ)
    (historicalCutoffs : List HistEntry) : PredictionResult :=
  if historicalCutoffs = [] then
    { projectedRank := none, probability := 0, confidence := "none",
      message := "No historical data for projection.",
      recommendation := getBaseRecommendation 0 }
  else
    let sorted := jsSortBy (fun a b => decide (b.year - a.year ≤ 0)) historicalCutoffs
    if (weightedSums (sorted.take 5) 0).2 = 0 then
      { projectedRank := none, probability := 0, confidence := "very low",
        message := "Insufficient valid historical data for projection.",
        recommendation := getBaseRecommendation 0 }
    else mainPrediction userRankInput sorted

/-- A candidate row as seen by the v15_simple_anchor_sort comparator: the
fields the comparator reads, plus the program name (the comparator ignores
it, so distinct rows can compare equal). -/
structure Candidate where
  institute : String
  programName : String
  closingRank : Option ℚ
  instituteCategory : String
deriving DecidableEq

/-- typeOrder lookup with the JS fallback typeOrder[cat] || typeOrder.UNKNOWN. -/
def typeOrder (cat : String) : Int :=
  if cat = "IIT" then 1
  else if cat = "NIT" then 2
  else if cat = "IIIT" then 3
  else if cat = "GFTI" then 4
  else 5

/-- Closing rank as used by the comparator: null or NaN becomes Infinity. -/
def crVal (c : Candidate) : WithTop ℚ :=
  match c.closingRank with
  | some q => (q : WithTop ℚ)
  | none => ⊤

/-- Lexicographic strict comparison on character lists; model of the sign of
localeCompare for institute names. -/
def charListLt : List Char → List Char → Bool
  | [], [] => false
  | [], _ :: _ => true
  | _ :: _, [] => false
  | a :: as, b :: bs => if a < b then true else if b < a then false else charListLt as bs

/-- Sign of (a.Institute || "").localeCompare(b.Institute || ""). -/
def strCmp (a b : String) : Int :=
  if charListLt a.data b.data then -1 else if charListLt b.data a.data then 1 else 0

/-- The v15_simple_anchor_sort comparator: anchor group, then institute
category, then closing rank (sign of crA - crB, with Infinity for null,
taken only when they differ), then institute name. -/
def cmpCandidates (anchorRankForSort : ℚ) (a b : Candidate) : Int :=
  let crA := crVal a
  let crB := crVal b
  let groupA : Int := if (anchorRankForSort : WithTop ℚ) ≤ crA then 1 else 2
  let groupB : Int := if (anchorRankForSort : WithTop ℚ) ≤ crB then 1 else 2
  if groupA ≠ groupB then groupA - groupB
  else
    let typeAOrder := typeOrder a.instituteCategory
    let typeBOrder := typeOrder b.instituteCategory
    if typeAOrder ≠ typeBOrder then typeAOrder - typeBOrder
    else if crA ≠ crB then (if crA < crB then -1 else 1)
    else strCmp a.institute b.institute

/-- Step table of getDynamicAnchorOffset for a numeric rank. -/
def dynamicOffsetTable (r : ℚ) : ℚ :=
  if r ≤ 0 then 1000
  else if r ≤ 10000 then 1000
  else if r ≤ 20000 then 1500
  else if r ≤ 30000 then 2200
  else if r ≤ 40000 then 2900
  else if r ≤ 50000 then 3500
  else if r ≤ 60000 then 4000
  else if r ≤ 70000 then 5500
  else if r ≤ 80000 then 6000
  else if r ≤ 90000 then 8500
  else if r ≤ 100000 then 10500
  else if r ≤ 150000 then 12500
  else if r ≤ 210000 then 20000
  else 30000

/-- getDynamicAnchorOffset(userRank): 1000 on non-numeric input, else the
step table. -/
def getDynamicAnchorOffset (userRank : Option ℚ) : ℚ :=
  match userRank with
  | none => 1000
  | some r => dynamicOffsetTable r

/-- anchorRankForSort = Math.max(1, userRankInt - dynamicOffset). -/
def anchorRankFor (userRank : ℚ) : ℚ :=
  max 1 (userRank - getDynamicAnchorOffset (some userRank))

/-- The recommendation ranker: filteredData.sort under the
v15_simple_anchor_sort comparator for a given user rank. -/
def rankCandidates (userRank : ℚ) (l : List Candidate) : List Candidate :=
  jsSortBy (fun a b => decide (cmpCandidates (anchorRankFor userRank) a b ≤ 0)) l

/-- Modelled from the claim wording: a candidate is achievable when its
closing rank (null as Infinity) is at least the anchor rank. -/
def achievable (anchor : ℚ) (c : Candidate) : Prop :=
  (anchor : WithTop ℚ) ≤ crVal c

/-- The ordering the claim describes for the ranker comparator: group
membership first (achievable before not), then category precedence, then
closing rank ascending with null as Infinity, then institute name
lexicographic ascending. -/
def specPrecedes (anchor : ℚ) (a b : Candidate) : Prop :=
  (achievable anchor a ∧ ¬ achievable anchor b) ∨
  ((achievable anchor a ↔ achievable anchor b) ∧
    (typeOrder a.instituteCategory < typeOrder b.instituteCategory ∨
      (typeOrder a.instituteCategory = typeOrder b.instituteCategory ∧
        (crVal a < crVal b ∨
          (crVal a = crVal b ∧ charListLt a.institute.data b.institute.data = true)))))

/-- Equality of the full sort key (group, category order, closing rank,
institute name) read by the comparator. -/
def sameSortKey (anchor : ℚ) (a b : Candidate) : Prop :=
  (achievable anchor a ↔ achievable anchor b) ∧
  typeOrder a.instituteCategory = typeOrder b.instituteCategory ∧
  crVal a = crVal b ∧ a.institute = b.institute

/-- JS String.prototype.trim on the character list of a string. -/
def jsTrim (s : List Char) : List Char :=
  ((s.dropWhile Char.isWhitespace).reverse.dropWhile Char.isWhitespace).reverse

/-- JS toUpperCase on ASCII data. -/
def jsToUpper (s : List Char) : List Char := s.map Char.toUpper

/-- JS toLowerCase on ASCII data. -/
def jsToLower (s : List Char) : List Char := s.map Char.toLower

/-- JS String.prototype.startsWith. -/
def jsStartsWith (s p : List Char) : Bool := p.isPrefixOf s

/-- JS String.prototype.includes: some suffix of s starts with sub. -/
def jsIncludes : List Char → List Char → Bool
  | [], sub => sub.isEmpty
  | c :: t, sub => sub.isPrefixOf (c :: t) || jsIncludes t sub

/-- getInstituteType(value): UNKNOWN on falsy input (absent or empty
string), exact uppercase short-code matches, then the ordered substring and
name-prefix checks, defaulting to GFTI. -/
def getInstituteType (value : Option (List Char)) : List Char :=
  match value with
  | none => "UNKNOWN".data
  | some v =>
    if v = [] then "UNKNOWN".data
    else
      let valStr := jsTrim v
      let valUpper := jsToUpper valStr
      if valUpper = "IIT".data then "IIT".data
      else if valUpper = "NIT".data then "NIT".data
      else if valUpper = "IIIT".data then "IIIT".data
      else if valUpper = "GFTI".data then "GFTI".data
      else
        let nameLower := jsToLower valStr
        if jsIncludes nameLower "indian institute of technology".data ||
            jsStartsWith nameLower "iit".data then "IIT".data
        else if jsIncludes nameLower "national institute of technology".data ||
            jsIncludes nameLower "iiest, shibpur".data ||
            jsStartsWith nameLower "nit".data then "NIT".data
        else if jsIncludes nameLower "indian institute of information technology".data ||
            jsStartsWith nameLower "iiit".data then "IIIT".data
        else "GFTI".data

/-- Modelled from the claim wording for the rank projector: the weighted
mean of the up-to-5 most recent valid closing ranks under the recency
weights (each valid rank paired with the weight of its position). -/
def specBaseProjection (l : List HistEntry) : ℚ :=
  let ranks := (l.take 5).filterMap (fun h => h.closeRank)
  (List.zipWith (fun r w => r * w) ranks recencyWeights).sum /
    (recencyWeights.take ranks.length).sum

/-- Modelled from the claim wording for the momentum adjustment: zero with
fewer than two entries, non-positive previous rank, or relative change of
at most 3 percent; otherwise the clamped half of the relative change times
the base projection, signed by the direction of the move. -/
def specMomentum (l : List HistEntry) (baseProjection : ℚ) : ℚ :=
  match l with
  | latest :: previous :: _ =>
    match latest.closeRank, previous.closeRank with
    | some lr, some pr =>
      if pr ≤ 0 then 0
      else
        let relativeChange := (lr - pr) / pr
        if |relativeChange| ≤ 0.03 then 0
        else if lr < pr then baseProjection * max (-(0.10 : ℚ)) (relativeChange * 0.5)
        else if pr < lr then baseProjection * min (0.10 : ℚ) (relativeChange * 0.5)
        else 0
    | _, _ => 0
  | _ => 0

/-- Number of valid historical closing ranks of a series. -/
def nPointsOf (l : List HistEntry) : ℕ := (l.filterMap (fun h => h.closeRank)).length

/-- Relative standard deviation as the claim defines it: standard deviation
of the valid closing ranks divided by the produced projected rank. -/
noncomputable def relativeStdDevOf (u : Option ℚ) (l : List HistEntry) : ℝ :=
  calculateStandardDeviation ((l.filterMap (fun h => h.closeRank)).map (fun q : ℚ => (q : ℝ))) /
    (((calculatePredictionDetails u l).projectedRank.getD 1 : ℚ) : ℝ)

open Classical in
/-- The canonical confidence table of the specification, as the claim
states it: for at least 4 points very high below 0.10, high below 0.15,
medium below 0.25, else low; for 3 points high below 0.15, medium below
0.20, else low; for 2 points medium below 0.20, else low; below that very
low. -/
noncomputable def confidenceTable (nPoints : ℕ) (relativeStdDev : ℝ) : String :=
  if 4 ≤ nPoints then
    if relativeStdDev < 0.10 then "very high"
    else if relativeStdDev < 0.15 then "high"
    else if relativeStdDev < 0.25 then "medium"
    else "low"
  else if nPoints = 3 then
    if relativeStdDev < 0.15 then "high"
    else if relativeStdDev < 0.20 then "medium"
    else "low"
  else if nPoints = 2 then
    if relativeStdDev < 0.20 then "medium"
    else "low"
  else "very low"

theorem jsInsert_perm {α : Type} (le : α → α → Bool) (a : α) :
    ∀ l : List α, (jsInsert le a l).Perm (a :: l)
  | [] => List.Perm.refl _
  | b :: t => by
    unfold jsInsert
    split
    · exact List.Perm.refl _
    · exact (List.Perm.cons b (jsInsert_perm le a t)).trans (List.Perm.swap a b t)

theorem jsSortBy_perm {α : Type} (le : α → α → Bool) :
    ∀ l : List α, (jsSortBy le l).Perm l
  | [] => List.Perm.refl _
  | a :: t =>
    (jsInsert_perm le a (jsSortBy le t)).trans (List.Perm.cons a (jsSortBy_perm le t))

theorem mem_jsInsert {α : Type} {le : α → α → Bool} {a x : α} {l : List α} :
    x ∈ jsInsert le a l ↔ x = a ∨ x ∈ l := by
  rw [(jsInsert_perm le a l).mem_iff, List.mem_cons]

theorem jsInsert_pairwise {α : Type} {le : α → α → Bool}
    (htrans : ∀ a b c, le a b = true → le b c = true → le a c = true)
    (htotal : ∀ a b, le a b = true ∨ le b a = true) (a : α) :
    ∀ {l : List α}, l.Pairwise (fun x y => le x y = true) →
      (jsInsert le a l).Pairwise (fun x y => le x y = true) := by
  intro l
  induction l with
  | nil => intro _; simp [jsInsert]
  | cons b t ih =>
    intro hl
    rw [List.pairwise_cons] at hl
    unfold jsInsert
    split
    · rename_i hab
      refine List.pairwise_cons.mpr ⟨?_, List.pairwise_cons.mpr hl⟩
      intro x hx
      rcases List.mem_cons.mp hx with rfl | hx
      · exact hab
      · exact htrans a b x hab (hl.1 x hx)
    · rename_i hab
      have hba : le b a = true := by
        rcases htotal a b with h | h
        · exact absurd h hab
        · exact h
      refine List.pairwise_cons.mpr ⟨?_, ih hl.2⟩
      intro x hx
      rcases mem_jsInsert.mp hx with rfl | hx
      · exact hba
      · exact hl.1 x hx

theorem jsSortBy_pairwise {α : Type} {le : α → α → Bool}
    (htrans : ∀ a b c, le a b = true → le b c = true → le a c = true)
    (htotal : ∀ a b, le a b = true ∨ le b a = true) :
    ∀ l : List α, (jsSortBy le l).Pairwise (fun x y => le x y = true)
  | [] => List.Pairwise.nil
  | a :: t =>
    jsInsert_pairwise htrans htotal a (jsSortBy_pairwise htrans htotal t)

theorem jsSortBy_of_pairwise {α : Type} {le : α → α → Bool} :
    ∀ {l : List α}, l.Pairwise (fun x y => le x y = true) → jsSortBy le l = l := by
  intro l
  induction l with
  | nil => intro _; rfl
  | cons a t ih =>
    intro hl
    rw [List.pairwise_cons] at hl
    show jsInsert le a (jsSortBy le t) = a :: t
    rw [ih hl.2]
    cases t with
    | nil => rfl
    | cons b t2 => simp [jsInsert, hl.1 b (List.mem_cons_self b t2)]

theorem perm_pairwise_eq {α : Type} {R : α → α → Prop} :
    ∀ {l1 l2 : List α}, l1.Perm l2 → l1.Pairwise R → l2.Pairwise R →
      (∀ a ∈ l1, ∀ b ∈ l1, R a b → R b a → a = b) → l1 = l2 := by
  intro l1
  induction l1 with
  | nil => intro l2 p _ _ _; exact p.nil_eq
  | cons a t1 ih =>
    intro l2 p h1 h2 anti
    cases l2 with
    | nil => exact absurd p.symm.nil_eq (by simp)
    | cons b t2 =>
      have hba : b = a := by
        by_contra hne
        have ha2 : a ∈ t2 := by
          have := p.mem_iff.mp (List.mem_cons_self a t1)
          rcases List.mem_cons.mp this with h | h
          · exact absurd h.symm hne
          · exact h
        have hb1 : b ∈ t1 := by
          have := p.symm.mem_iff.mp (List.mem_cons_self b t2)
          rcases List.mem_cons.mp this with h | h
          · exact absurd h hne
          · exact h
        have hrab : R a b := (List.pairwise_cons.mp h1).1 b hb1
        have hrba : R b a := (List.pairwise_cons.mp h2).1 a ha2
        exact hne ((anti a (List.mem_cons_self a t1) b (List.mem_cons_of_mem a hb1) hrab hrba).symm)
      subst hba
      have pt : t1.Perm t2 := p.cons_inv
      have : t1 = t2 := by
        refine ih pt (List.pairwise_cons.mp h1).2 (List.pairwise_cons.mp h2).2 ?_
        intro x hx y hy
        exact anti x (List.mem_cons_of_mem _ hx) y (List.mem_cons_of_mem _ hy)
      rw [this]

theorem mem_latestRoundScan {e : HistEntry} :
    ∀ {rows : List HistEntry} {seen : List Int}, e ∈ latestRoundScan rows seen →
      e ∈ rows ∧ e.closeRank.isSome = true := by
  intro rows
  induction rows with
  | nil => intro seen h; simp [latestRoundScan] at h
  | cons h t ih =>
    intro seen hmem
    unfold latestRoundScan at hmem
    split at hmem
    · rename_i hcond
      rcases List.mem_cons.mp hmem with rfl | hmem
      · exact ⟨List.mem_cons_self _ _, hcond.1⟩
      · exact ⟨List.mem_cons_of_mem _ (ih hmem).1, (ih hmem).2⟩
    · exact ⟨List.mem_cons_of_mem _ (ih hmem).1, (ih hmem).2⟩

theorem latestRoundScan_year_notin_seen {e : HistEntry} :
    ∀ {rows : List HistEntry} {seen : List Int}, e ∈ latestRoundScan rows seen →
      e.year ∉ seen := by
  intro rows
  induction rows with
  | nil => intro seen h; simp [latestRoundScan] at h
  | cons h t ih =>
    intro seen hmem
    unfold latestRoundScan at hmem
    split at hmem
    · rename_i hcond
      rcases List.mem_cons.mp hmem with rfl | hmem
      · exact hcond.2
      · intro hin
        exact ih hmem (List.mem_cons_of_mem _ hin)
    · exact ih hmem

theorem latestRoundScan_head {e : HistEntry} :
    ∀ {rows : List HistEntry} {seen : List Int}, e ∈ latestRoundScan rows seen →
      (rows.filter (fun r => r.closeRank.isSome && decide (r.year = e.year))).head? = some e := by
  intro rows
  induction rows with
  | nil => intro seen h; simp [latestRoundScan] at h
  | cons h t ih =>
    intro seen hmem
    unfold latestRoundScan at hmem
    split at hmem
    · rename_i hcond
      rcases List.mem_cons.mp hmem with rfl | hmem
      · simp [List.filter_cons, hcond.1]
      · have hne : e.year ≠ h.year := by
          intro heq
          exact latestRoundScan_year_notin_seen hmem (heq ▸ List.mem_cons_self _ _)
        rw [List.filter_cons, if_neg (by simp [Ne.symm hne]), ih hmem]
    · rename_i hcond
      have hnotin : e.year ∉ seen := latestRoundScan_year_notin_seen hmem
      by_cases hv : h.closeRank.isSome = true
      · have hseen : h.year ∈ seen := by
          by_contra hns
          exact hcond ⟨hv, hns⟩
        have hne : h.year ≠ e.year := by
          intro heq
          exact hnotin (heq ▸ hseen)
        rw [List.filter_cons, if_neg (by simp [hne]), ih hmem]
      · rw [List.filter_cons, if_neg (by simp [hv]), ih hmem]

theorem cmpYearRoundDesc_le_iff (a b : HistEntry) :
    cmpYearRoundDesc a b ≤ 0 ↔
      b.year < a.year ∨ (b.year = a.year ∧ b.round ≤ a.round) := by
  unfold cmpYearRoundDesc
  split
  · rename_i hne
    omega
  · rename_i hne
    omega

theorem cmpYearRoundDesc_trans (a b c : HistEntry)
    (hab : decide (cmpYearRoundDesc a b ≤ 0) = true)
    (hbc : decide (cmpYearRoundDesc b c ≤ 0) = true) :
    decide (cmpYearRoundDesc a c ≤ 0) = true := by
  rw [decide_eq_true_eq] at hab hbc ⊢
  rw [cmpYearRoundDesc_le_iff] at hab hbc ⊢
  omega

theorem cmpYearRoundDesc_total (a b : HistEntry) :
    decide (cmpYearRoundDesc a b ≤ 0) = true ∨ decide (cmpYearRoundDesc b a ≤ 0) = true := by
  rw [decide_eq_true_eq, decide_eq_true_eq, cmpYearRoundDesc_le_iff, cmpYearRoundDesc_le_iff]
  omega

/-- C5: for every list of raw rows of one program, the aggregator output has
at most one entry per distinct year, every retained entry is an input row
with a non-null closing rank whose round is maximal among that year's valid
rows, and a year whose rows are all null is omitted. -/
theorem claim_C5_cutoff_aggregator (rows : List HistEntry) :
    (∀ e1 ∈ latestRoundCutoffsPerYear rows, ∀ e2 ∈ latestRoundCutoffsPerYear rows,
        e1.year = e2.year → e1 = e2) ∧
    (∀ e ∈ latestRoundCutoffsPerYear rows,
        e ∈ rows ∧ e.closeRank.isSome = true ∧
          ∀ r ∈ rows, r.year = e.year → r.closeRank.isSome = true → r.round ≤ e.round) ∧
    (∀ y : Int, (∀ r ∈ rows, r.year = y → r.closeRank = none) →
        ∀ e ∈ latestRoundCutoffsPerYear rows, e.year ≠ y) := by
  have hperm := jsSortBy_perm (fun a b => decide (cmpYearRoundDesc a b ≤ 0)) rows
  have hpair := jsSortBy_pairwise cmpYearRoundDesc_trans cmpYearRoundDesc_total rows
  have hmax : ∀ e ∈ latestRoundCutoffsPerYear rows,
      ∀ r ∈ rows, r.year = e.year → r.closeRank.isSome = true → r.round ≤ e.round := by
    intro e he r hr hy hv
    have hhead := latestRoundScan_head he
    set sorted := jsSortBy (fun a b => decide (cmpYearRoundDesc a b ≤ 0)) rows with hs
    set p := fun r : HistEntry => r.closeRank.isSome && decide (r.year = e.year) with hp
    obtain ⟨rest, hfe⟩ : ∃ rest, sorted.filter p = e :: rest := by
      cases hfl : sorted.filter p with
      | nil => rw [hfl] at hhead; simp at hhead
      | cons x xs =>
        rw [hfl] at hhead
        simp only [List.head?_cons, Option.some_inj] at hhead
        refine ⟨xs, ?_⟩
        rw [hhead]
    have hrs : r ∈ sorted := hperm.mem_iff.mpr hr
    have hrf : r ∈ sorted.filter p := by
      rw [List.mem_filter]
      exact ⟨hrs, by simp [hp, hv, hy]⟩
    rw [hfe] at hrf
    rcases List.mem_cons.mp hrf with rfl | hrf
    · exact le_refl _
    · have hpf : (sorted.filter p).Pairwise
          (fun x y => (decide (cmpYearRoundDesc x y ≤ 0)) = true) :=
        List.Pairwise.sublist (List.filter_sublist sorted) hpair
      rw [hfe, List.pairwise_cons] at hpf
      have hle := hpf.1 r hrf
      rw [decide_eq_true_eq, cmpYearRoundDesc_le_iff] at hle
      omega
  refine ⟨?_, ?_, ?_⟩
  · intro e1 he1 e2 he2 hy
    have h1 := latestRoundScan_head he1
    have h2 := latestRoundScan_head he2
    rw [hy] at h1
    rw [h1] at h2
    exact Option.some_inj.mp h2
  · intro e he
    have hmem := mem_latestRoundScan he
    exact ⟨hperm.mem_iff.mp hmem.1, hmem.2, hmax e he⟩
  · intro y hall e he
    intro hy
    have hmem := mem_latestRoundScan he
    have := hall e (hperm.mem_iff.mp hmem.1) hy
    rw [this] at hmem
    simp at hmem

/-- C5 witness: on a concrete program history, the 2023 entry kept by the
aggregator has round at least that of the other valid 2023 row. -/
theorem claim_C5_cutoff_aggregator_witness :
    (⟨2023, 1, some 4000⟩ : HistEntry).round ≤ (⟨2023, 2, some 4100⟩ : HistEntry).round :=
  ((claim_C5_cutoff_aggregator
      [⟨2023, 1, some 4000⟩, ⟨2023, 2, some 4100⟩, ⟨2022, 5, none⟩, ⟨2022, 3, some 3900⟩]).2.1
    ⟨2023, 2, some 4100⟩ (by decide)).2.2 ⟨2023, 1, some 4000⟩ (by decide) (by decide) (by decide)

theorem round_mono_le {x y : ℝ} (h : x ≤ y) : round x ≤ round y := by
  rw [round_eq, round_eq]
  exact Int.floor_le_floor (by linarith)

theorem toFixed3_mono {x y : ℝ} (h : x ≤ y) : toFixed3 x ≤ toFixed3 y := by
  unfold toFixed3
  have : round (1000 * x) ≤ round (1000 * y) := round_mono_le (by linarith)
  have hc : ((round (1000 * x) : ℤ) : ℝ) ≤ ((round (1000 * y) : ℤ) : ℝ) := by
    exact_mod_cast this
  linarith

theorem toFixed3_001 : toFixed3 0.01 = 0.01 := by
  unfold toFixed3
  have h10 : (1000 : ℝ) * 0.01 = ((10 : ℤ) : ℝ) := by norm_num
  rw [h10, round_intCast]
  norm_num

theorem toFixed3_090 : toFixed3 0.90 = 0.90 := by
  unfold toFixed3
  have h900 : (1000 : ℝ) * 0.90 = ((900 : ℤ) : ℝ) := by norm_num
  rw [h900, round_intCast]
  norm_num

theorem getProb_at_or_below (u t : ℝ) (ht : 0 < t) (h : u ≤ t) :
    getProbabilityAgainstTarget (some u) (some t) = 0.98 := by
  simp only [getProbabilityAgainstTarget]
  rw [if_neg (not_le.mpr ht), if_pos h]

theorem getProb_above (u t : ℝ) (ht : 0 < t) (h : t < u) :
    getProbabilityAgainstTarget (some u) (some t) =
      toFixed3 (max 0.01 (min (0.90 * Real.exp (-(u - t) / max 500 (t * 0.25))) 0.90)) := by
  simp only [getProbabilityAgainstTarget]
  rw [if_neg (not_le.mpr ht), if_neg (not_le.mpr h)]

theorem getProb_clamped_lower (x : ℝ) : 0.01 ≤ toFixed3 (max 0.01 (min x 0.90)) := by
  calc (0.01 : ℝ) = toFixed3 0.01 := toFixed3_001.symm
    _ ≤ toFixed3 (max 0.01 (min x 0.90)) := toFixed3_mono (le_max_left _ _)

theorem getProb_clamped_upper (x : ℝ) : toFixed3 (max 0.01 (min x 0.90)) ≤ 0.90 := by
  calc toFixed3 (max 0.01 (min x 0.90)) ≤ toFixed3 0.90 :=
        toFixed3_mono (max_le (by norm_num) (min_le_right _ _))
    _ = 0.90 := toFixed3_090

/-- C1: a candidate rank at or below a positive projected rank gives exactly
0.98, and every degenerate input (non-numeric rank or target, or a
non-positive target) gives exactly 0.01. -/
theorem claim_C1_probability_boundary :
    (∀ u t : ℝ, 0 < t → u ≤ t → getProbabilityAgainstTarget (some u) (some t) = 0.98) ∧
    (∀ t : Option ℝ, getProbabilityAgainstTarget none t = 0.01) ∧
    (∀ u : ℝ, getProbabilityAgainstTarget (some u) none = 0.01) ∧
    (∀ u t : ℝ, t ≤ 0 → getProbabilityAgainstTarget (some u) (some t) = 0.01) := by
  refine ⟨getProb_at_or_below, ?_, ?_, ?_⟩
  · intro t; cases t <;> rfl
  · intro u; rfl
  · intro u t ht
    simp only [getProbabilityAgainstTarget]
    rw [if_pos ht]

/-- C1 witness at concrete inputs. -/
theorem claim_C1_probability_boundary_witness :
    getProbabilityAgainstTarget (some 1) (some 2) = 0.98 ∧
    getProbabilityAgainstTarget none (some 2) = 0.01 ∧
    getProbabilityAgainstTarget (some 1) none = 0.01 ∧
    getProbabilityAgainstTarget (some 1) (some (-1)) = 0.01 :=
  ⟨claim_C1_probability_boundary.1 1 2 two_pos one_le_two,
   claim_C1_probability_boundary.2.1 (some 2),
   claim_C1_probability_boundary.2.2.1 1,
   claim_C1_probability_boundary.2.2.2 1 (-1) (neg_nonpos.mpr zero_le_one)⟩

/-- C6: for a fixed positive projected rank the estimator is non-increasing
in the candidate rank (hence in diff), and its value always lies in the
interval [0.01, 0.99]. -/
theorem claim_C6_probability_monotone_bounded (t : ℝ) (ht : 0 < t) :
    (∀ u1 u2 : ℝ, u1 ≤ u2 →
      getProbabilityAgainstTarget (some u2) (some t) ≤
        getProbabilityAgainstTarget (some u1) (some t)) ∧
    (∀ u : ℝ, 0.01 ≤ getProbabilityAgainstTarget (some u) (some t) ∧
      getProbabilityAgainstTarget (some u) (some t) ≤ 0.99) := by
  have hk : (0 : ℝ) < max 500 (t * 0.25) := lt_of_lt_of_le (by norm_num) (le_max_left _ _)
  constructor
  · intro u1 u2 h12
    by_cases h2 : u2 ≤ t
    · rw [getProb_at_or_below u2 t ht h2, getProb_at_or_below u1 t ht (le_trans h12 h2)]
    · push_neg at h2
      rw [getProb_above u2 t ht h2]
      by_cases h1 : u1 ≤ t
      · rw [getProb_at_or_below u1 t ht h1]
        calc toFixed3 (max 0.01 (min (0.90 * Real.exp (-(u2 - t) / max 500 (t * 0.25))) 0.90)) ≤
              0.90 := getProb_clamped_upper _
          _ ≤ 0.98 := by norm_num
      · push_neg at h1
        rw [getProb_above u1 t ht h1]
        refine toFixed3_mono (max_le_max (le_refl _) (min_le_min ?_ (le_refl _)))
        have hdiff : -(u2 - t) ≤ -(u1 - t) := by linarith
        have := (div_le_div_iff_of_pos_right hk).mpr hdiff
        have hexp := Real.exp_le_exp.mpr this
        nlinarith [Real.exp_pos (-(u2 - t) / max 500 (t * 0.25))]
  · intro u
    by_cases h : u ≤ t
    · rw [getProb_at_or_below u t ht h]
      norm_num
    · push_neg at h
      rw [getProb_above u t ht h]
      exact ⟨getProb_clamped_lower _, le_trans (getProb_clamped_upper _) (by norm_num)⟩

/-- C6 witness at the concrete projected rank 1 and candidate ranks 1, 2, 3. -/
theorem claim_C6_probability_monotone_bounded_witness :
    getProbabilityAgainstTarget (some 2) (some 1) ≤
      getProbabilityAgainstTarget (some 1) (some 1) ∧
    0.01 ≤ getProbabilityAgainstTarget (some 3) (some 1) ∧
    getProbabilityAgainstTarget (some 3) (some 1) ≤ 0.99 :=
  ⟨(claim_C6_probability_monotone_bounded 1 one_pos).1 1 2 one_le_two,
   (claim_C6_probability_monotone_bounded 1 one_pos).2 3⟩

/-- C10: the estimator only ever returns 0.98 or a value in [0.01, 0.90];
in particular it is never strictly between 0.90 and 0.98, never above
0.98, and the declared upper bound 0.99 is never attained. -/
theorem claim_C10_probability_attained_range (u t : Option ℝ) :
    getProbabilityAgainstTarget u t = 0.98 ∨
      (0.01 ≤ getProbabilityAgainstTarget u t ∧ getProbabilityAgainstTarget u t ≤ 0.90) := by
  match u, t with
  | none, t => right; constructor <;> norm_num [getProbabilityAgainstTarget]
  | some u, none => right; constructor <;> norm_num [getProbabilityAgainstTarget]
  | some u, some t =>
    by_cases ht : t ≤ 0
    · right
      simp only [getProbabilityAgainstTarget]
      rw [if_pos ht]
      norm_num
    · push_neg at ht
      by_cases hut : u ≤ t
      · left; exact getProb_at_or_below u t ht hut
      · push_neg at hut
        right
        rw [getProb_above u t ht hut]
        exact ⟨getProb_clamped_lower _, getProb_clamped_upper _⟩



theorem charListLt_irrefl : ∀ a : List Char, charListLt a a = false := by
  intro a
  induction a with
  | nil => rfl
  | cons c t ih => simp [charListLt, ih]

theorem charListLt_asymm : ∀ a b : List Char,
    charListLt a b = true → charListLt b a = false := by
  intro a
  induction a with
  | nil =>
    intro b h
    cases b with
    | nil => rfl
    | cons bh bt => rfl
  | cons ah as1 ih =>
    intro b h
    cases b with
    | nil => simp [charListLt] at h
    | cons bh bt =>
      simp only [charListLt] at h ⊢
      rcases lt_trichotomy ah bh with h1 | h1 | h1
      · simp [h1, lt_asymm h1]
      · subst h1
        simp only [lt_irrefl, if_false] at h ⊢
        exact ih bt h
      · simp [h1, lt_asymm h1] at h

theorem charListLt_connex : ∀ a b : List Char,
    charListLt a b = false → charListLt b a = false → a = b := by
  intro a
  induction a with
  | nil =>
    intro b h1 _
    cases b with
    | nil => rfl
    | cons bh bt => simp [charListLt] at h1
  | cons ah as1 ih =>
    intro b h1 h2
    cases b with
    | nil => simp [charListLt] at h2
    | cons bh bt =>
      simp only [charListLt] at h1 h2
      rcases lt_trichotomy ah bh with h3 | h3 | h3
      · simp [h3] at h1
      · subst h3
        simp only [lt_irrefl, if_false] at h1 h2
        rw [ih bt h1 h2]
      · simp [h3] at h2

theorem charListLt_trans : ∀ a b c : List Char,
    charListLt a b = true → charListLt b c = true → charListLt a c = true := by
  intro a
  induction a with
  | nil =>
    intro b c h1 h2
    cases c with
    | nil =>
      cases b with
      | nil => exact h2
      | cons bh bt => simp [charListLt] at h2
    | cons ch ct => rfl
  | cons ah as1 ih =>
    intro b c h1 h2
    cases b with
    | nil => simp [charListLt] at h1
    | cons bh bt =>
      cases c with
      | nil => simp [charListLt] at h2
      | cons ch ct =>
        simp only [charListLt] at h1 h2 ⊢
        rcases lt_trichotomy ah bh with hab | hab | hab
        · rcases lt_trichotomy bh ch with hbc | hbc | hbc
          · simp [lt_trans hab hbc]
          · subst hbc; simp [hab]
          · simp [hbc, lt_asymm hbc] at h2
        · subst hab
          simp only [lt_irrefl, if_false] at h1
          rcases lt_trichotomy ah ch with hbc | hbc | hbc
          · simp [hbc]
          · subst hbc
            simp only [lt_irrefl, if_false] at h2 ⊢
            exact ih bt ct h1 h2
          · simp [hbc, lt_asymm hbc] at h2
        · simp [hab, lt_asymm hab] at h1

theorem strCmp_neg_iff (a b : String) :
    strCmp a b < 0 ↔ charListLt a.data b.data = true := by
  unfold strCmp
  split_ifs with h1 h2
  · exact iff_of_true (by norm_num) h1
  · exact iff_of_false (by norm_num) h1
  · exact iff_of_false (by norm_num) h1

theorem strCmp_eq_zero_iff (a b : String) : strCmp a b = 0 ↔ a = b := by
  unfold strCmp
  split_ifs with h1 h2
  · refine iff_of_false (by norm_num) ?_
    intro he
    rw [he, charListLt_irrefl] at h1
    exact Bool.false_ne_true h1
  · refine iff_of_false (by norm_num) ?_
    intro he
    rw [he, charListLt_irrefl] at h2
    exact Bool.false_ne_true h2
  · refine iff_of_true rfl ?_
    have hd := charListLt_connex a.data b.data (by simpa using h1) (by simpa using h2)
    cases a
    cases b
    exact congrArg String.mk hd

theorem strCmp_antisymm (a b : String) : strCmp b a = - strCmp a b := by
  unfold strCmp
  by_cases h1 : charListLt a.data b.data = true
  · have h1f : charListLt b.data a.data = false := charListLt_asymm _ _ h1
    simp [h1, h1f]
  · by_cases h2 : charListLt b.data a.data = true
    · simp [h1, h2]
    · simp [h1, h2]

/-- The tail of the comparator once the anchor groups agree. -/
def cmpTail (a b : Candidate) : Int :=
  if typeOrder a.instituteCategory ≠ typeOrder b.instituteCategory then
    typeOrder a.instituteCategory - typeOrder b.instituteCategory
  else if crVal a ≠ crVal b then (if crVal a < crVal b then -1 else 1)
  else strCmp a.institute b.institute

theorem cmpCandidates_eq (anchor : ℚ) (a b : Candidate) :
    cmpCandidates anchor a b =
      if ((anchor : WithTop ℚ) ≤ crVal a ↔ (anchor : WithTop ℚ) ≤ crVal b) then cmpTail a b
      else if (anchor : WithTop ℚ) ≤ crVal a then -1 else 1 := by
  simp only [cmpCandidates, cmpTail]
  by_cases hA : (anchor : WithTop ℚ) ≤ crVal a <;>
    by_cases hB : (anchor : WithTop ℚ) ≤ crVal b <;>
      simp [hA, hB]

theorem cmpTail_lt_iff (a b : Candidate) :
    cmpTail a b < 0 ↔
      (typeOrder a.instituteCategory < typeOrder b.instituteCategory ∨
        (typeOrder a.instituteCategory = typeOrder b.instituteCategory ∧
          (crVal a < crVal b ∨
            (crVal a = crVal b ∧ charListLt a.institute.data b.institute.data = true)))) := by
  unfold cmpTail
  by_cases hT : typeOrder a.instituteCategory = typeOrder b.instituteCategory
  · rw [if_neg (by simp [hT])]
    by_cases hC : crVal a = crVal b
    · rw [if_neg (by simp [hC])]
      rw [strCmp_neg_iff]
      constructor
      · intro h
        exact Or.inr ⟨hT, Or.inr ⟨hC, h⟩⟩
      · rintro (h | ⟨-, (h | ⟨-, h⟩)⟩)
        · rw [hT] at h
          exact absurd h (lt_irrefl _)
        · exact absurd h (by rw [hC]; exact lt_irrefl _)
        · exact h
    · rw [if_pos hC]
      by_cases hlt : crVal a < crVal b
      · rw [if_pos hlt]
        exact iff_of_true (by norm_num) (Or.inr ⟨hT, Or.inl hlt⟩)
      · rw [if_neg hlt]
        refine iff_of_false (by norm_num) ?_
        rintro (h | ⟨-, (h | ⟨h, -⟩)⟩)
        · rw [hT] at h; exact lt_irrefl _ h
        · exact hlt h
        · exact hC h
  · rw [if_pos hT]
    constructor
    · intro h
      exact Or.inl (by omega)
    · rintro (h | ⟨h, -⟩)
      · omega
      · exact absurd h hT

theorem cmpTail_eq_iff (a b : Candidate) :
    cmpTail a b = 0 ↔
      (typeOrder a.instituteCategory = typeOrder b.instituteCategory ∧
        crVal a = crVal b ∧ a.institute = b.institute) := by
  unfold cmpTail
  by_cases hT : typeOrder a.instituteCategory = typeOrder b.instituteCategory
  · rw [if_neg (by simp [hT])]
    by_cases hC : crVal a = crVal b
    · rw [if_neg (by simp [hC])]
      rw [strCmp_eq_zero_iff]
      constructor
      · intro h
        exact ⟨hT, hC, h⟩
      · rintro ⟨-, -, h⟩
        exact h
    · rw [if_pos hC]
      refine iff_of_false ?_ ?_
      · split_ifs <;> norm_num
      · rintro ⟨-, h, -⟩
        exact hC h
  · rw [if_pos hT]
    refine iff_of_false (by omega) ?_
    rintro ⟨h, -, -⟩
    exact hT h

theorem cmpTail_antisymm (a b : Candidate) : cmpTail b a = - cmpTail a b := by
  unfold cmpTail
  by_cases hT : typeOrder a.instituteCategory = typeOrder b.instituteCategory
  · have hT1 : ¬ typeOrder b.instituteCategory ≠ typeOrder a.instituteCategory := by simp [hT]
    have hT2 : ¬ typeOrder a.instituteCategory ≠ typeOrder b.instituteCategory := by simp [hT]
    rw [if_neg hT1, if_neg hT2]
    by_cases hC : crVal a = crVal b
    · have hC1 : ¬ crVal b ≠ crVal a := by simp [hC]
      have hC2 : ¬ crVal a ≠ crVal b := by simp [hC]
      rw [if_neg hC1, if_neg hC2]
      exact strCmp_antisymm a.institute b.institute
    · rw [if_pos (Ne.symm hC), if_pos hC]
      rcases lt_or_gt_of_ne hC with h | h
      · rw [if_neg (lt_asymm h), if_pos h]
        norm_num
      · rw [if_pos h, if_neg (lt_asymm h)]
  · rw [if_pos (Ne.symm hT), if_pos hT]
    omega

theorem cmpCandidates_antisymm (anchor : ℚ) (a b : Candidate) :
    cmpCandidates anchor b a = - cmpCandidates anchor a b := by
  rw [cmpCandidates_eq, cmpCandidates_eq]
  by_cases hG : ((anchor : WithTop ℚ) ≤ crVal a ↔ (anchor : WithTop ℚ) ≤ crVal b)
  · rw [if_pos hG, if_pos (Iff.comm.mp hG)]
    exact cmpTail_antisymm a b
  · rw [if_neg hG, if_neg (fun h => hG (Iff.comm.mp h))]
    by_cases hA : (anchor : WithTop ℚ) ≤ crVal a
    · have hB : ¬ (anchor : WithTop ℚ) ≤ crVal b := fun hB => hG (iff_of_true hA hB)
      rw [if_pos hA, if_neg hB]
      rfl
    · have hB : (anchor : WithTop ℚ) ≤ crVal b := by
        by_contra hB
        exact hG (iff_of_false hA hB)
      rw [if_neg hA, if_pos hB]

theorem cmpCandidates_lt_iff (anchor : ℚ) (a b : Candidate) :
    cmpCandidates anchor a b < 0 ↔ specPrecedes anchor a b := by
  rw [cmpCandidates_eq]
  unfold specPrecedes achievable
  by_cases hG : ((anchor : WithTop ℚ) ≤ crVal a ↔ (anchor : WithTop ℚ) ≤ crVal b)
  · rw [if_pos hG, cmpTail_lt_iff]
    constructor
    · intro h
      exact Or.inr ⟨hG, h⟩
    · rintro (⟨h1, h2⟩ | ⟨-, h⟩)
      · exact absurd (hG.mp h1) h2
      · exact h
  · rw [if_neg hG]
    by_cases hA : (anchor : WithTop ℚ) ≤ crVal a
    · have hB : ¬ (anchor : WithTop ℚ) ≤ crVal b := fun hB => hG (iff_of_true hA hB)
      rw [if_pos hA]
      exact iff_of_true (by norm_num) (Or.inl ⟨hA, hB⟩)
    · rw [if_neg hA]
      refine iff_of_false (by norm_num) ?_
      rintro (⟨h1, -⟩ | ⟨h, -⟩)
      · exact hA h1
      · exact hG h

theorem cmpCandidates_eq_zero_iff (anchor : ℚ) (a b : Candidate) :
    cmpCandidates anchor a b = 0 ↔ sameSortKey anchor a b := by
  rw [cmpCandidates_eq]
  unfold sameSortKey achievable
  by_cases hG : ((anchor : WithTop ℚ) ≤ crVal a ↔ (anchor : WithTop ℚ) ≤ crVal b)
  · rw [if_pos hG, cmpTail_eq_iff]
    constructor
    · intro h
      exact ⟨hG, h⟩
    · rintro ⟨-, h⟩
      exact h
  · rw [if_neg hG]
    refine iff_of_false ?_ ?_
    · split_ifs <;> norm_num
    · rintro ⟨h, -⟩
      exact hG h

theorem iteStepMono (t v : ℚ) (G : ℚ → ℚ) (hG : ∀ x y, x ≤ y → G x ≤ G y)
    (hv : ∀ x, v ≤ G x) :
    ∀ x y, x ≤ y → (if x ≤ t then v else G x) ≤ (if y ≤ t then v else G y) := by
  intro x y h
  by_cases hx : x ≤ t
  · rw [if_pos hx]
    by_cases hy : y ≤ t
    · rw [if_pos hy]
    · rw [if_neg hy]
      exact hv y
  · rw [if_neg hx, if_neg (fun hy => hx (le_trans h hy))]
    exact hG x y h

theorem offLb13 : ∀ x : ℚ, (30000 : ℚ) ≤ (fun _ : ℚ => (30000 : ℚ)) x :=
  fun _ => le_refl _

theorem offMono13 : ∀ x y : ℚ, x ≤ y →
    (fun _ : ℚ => (30000 : ℚ)) x ≤ (fun _ : ℚ => (30000 : ℚ)) y :=
  fun _ _ _ => le_refl _

theorem offLb12 : ∀ x : ℚ, (20000 : ℚ) ≤ (fun x => if x ≤ 210000 then 20000 else (30000 : ℚ)) x := by
  intro x
  show (20000 : ℚ) ≤ if x ≤ 210000 then 20000 else (fun _ : ℚ => (30000 : ℚ)) x
  by_cases h : x ≤ 210000
  · rw [if_pos h]
  · rw [if_neg h]
    exact le_trans (by norm_num) (offLb13 x)

theorem offMono12 : ∀ x y : ℚ, x ≤ y → (fun x => if x ≤ 210000 then 20000 else (30000 : ℚ)) x ≤ (fun x => if x ≤ 210000 then 20000 else (30000 : ℚ)) y :=
  iteStepMono 210000 20000 (fun _ : ℚ => (30000 : ℚ)) offMono13
    (fun x => le_trans (by norm_num) (offLb13 x))

theorem offLb11 : ∀ x : ℚ, (12500 : ℚ) ≤ (fun x => if x ≤ 150000 then 12500 else if x ≤ 210000 then 20000 else (30000 : ℚ)) x := by
  intro x
  show (12500 : ℚ) ≤ if x ≤ 150000 then 12500 else (fun x => if x ≤ 210000 then 20000 else (30000 : ℚ)) x
  by_cases h : x ≤ 150000
  · rw [if_pos h]
  · rw [if_neg h]
    exact le_trans (by norm_num) (offLb12 x)

theorem offMono11 : ∀ x y : ℚ, x ≤ y → (fun x => if x ≤ 150000 then 12500 else if x ≤ 210000 then 20000 else (30000 : ℚ)) x ≤ (fun x => if x ≤ 150000 then 12500 else if x ≤ 210000 then 20000 else (30000 : ℚ)) y :=
  iteStepMono 150000 12500 (fun x => if x ≤ 210000 then 20000 else (30000 : ℚ)) offMono12
    (fun x => le_trans (by norm_num) (offLb12 x))

theorem offLb10 : ∀ x : ℚ, (10500 : ℚ) ≤ (fun x => if x ≤ 100000 then 10500 else if x ≤ 150000 then 12500 else if x ≤ 210000 then 20000 else (30000 : ℚ)) x := by
  intro x
  show (10500 : ℚ) ≤ if x ≤ 100000 then 10500 else (fun x => if x ≤ 150000 then 12500 else if x ≤ 210000 then 20000 else (30000 : ℚ)) x
  by_cases h : x ≤ 100000
  · rw [if_pos h]
  · rw [if_neg h]
    exact le_trans (by norm_num) (offLb11 x)

theorem offMono10 : ∀ x y : ℚ, x ≤ y → (fun x => if x ≤ 100000 then 10500 else if x ≤ 150000 then 12500 else if x ≤ 210000 then 20000 else (30000 : ℚ)) x ≤ (fun x => if x ≤ 100000 then 10500 else if x ≤ 150000 then 12500 else if x ≤ 210000 then 20000 else (30000 : ℚ)) y :=
  iteStepMono 100000 10500 (fun x => if x ≤ 150000 then 12500 else if x ≤ 210000 then 20000 else (30000 : ℚ)) offMono11
    (fun x => le_trans (by norm_num) (offLb11 x))

theorem offLb9 : ∀ x : ℚ, (8500 : ℚ) ≤ (fun x => if x ≤ 90000 then 8500 else if x ≤ 100000 then 10500 else if x ≤ 150000 then 12500 else if x ≤ 210000 then 20000 else (30000 : ℚ)) x := by
  intro x
  show (8500 : ℚ) ≤ if x ≤ 90000 then 8500 else (fun x => if x ≤ 100000 then 10500 else if x ≤ 150000 then 12500 else if x ≤ 210000 then 20000 else (30000 : ℚ)) x
  by_cases h : x ≤ 90000
  · rw [if_pos h]
  · rw [if_neg h]
    exact le_trans (by norm_num) (offLb10 x)

theorem offMono9 : ∀ x y : ℚ, x ≤ y → (fun x => if x ≤ 90000 then 8500 else if x ≤ 100000 then 10500 else if x ≤ 150000 then 12500 else if x ≤ 210000 then 20000 else (30000 : ℚ)) x ≤ (fun x => if x ≤ 90000 then 8500 else if x ≤ 100000 then 10500 else if x ≤ 150000 then 12500 else if x ≤ 210000 then 20000 else (30000 : ℚ)) y :=
  iteStepMono 90000 8500 (fun x => if x ≤ 100000 then 10500 else if x ≤ 150000 then 12500 else if x ≤ 210000 then 20000 else (30000 : ℚ)) offMono10
    (fun x => le_trans (by norm_num) (offLb10 x))

theorem offLb8 : ∀ x : ℚ, (6000 : ℚ) ≤ (fun x => if x ≤ 80000 then 6000 else if x ≤ 90000 then 8500 else if x ≤ 100000 then 10500 else if x ≤ 150000 then 12500 else if x ≤ 210000 then 20000 else (30000 : ℚ)) x := by
  intro x
  show (6000 : ℚ) ≤ if x ≤ 80000 then 6000 else (fun x => if x ≤ 90000 then 8500 else if x ≤ 100000 then 10500 else if x ≤ 150000 then 12500 else if x ≤ 210000 then 20000 else (30000 : ℚ)) x
  by_cases h : x ≤ 80000
  · rw [if_pos h]
  · rw [if_neg h]
    exact le_trans (by norm_num) (offLb9 x)

theorem offMono8 : ∀ x y : ℚ, x ≤ y → (fun x => if x ≤ 80000 then 6000 else if x ≤ 90000 then 8500 else if x ≤ 100000 then 10500 else if x ≤ 150000 then 12500 else if x ≤ 210000 then 20000 else (30000 : ℚ)) x ≤ (fun x => if x ≤ 80000 then 6000 else if x ≤ 90000 then 8500 else if x ≤ 100000 then 10500 else if x ≤ 150000 then 12500 else if x ≤ 210000 then 20000 else (30000 : ℚ)) y :=
  iteStepMono 80000 6000 (fun x => if x ≤ 90000 then 8500 else if x ≤ 100000 then 10500 else if x ≤ 150000 then 12500 else if x ≤ 210000 then 20000 else (30000 : ℚ)) offMono9
    (fun x => le_trans (by norm_num) (offLb9 x))

theorem offLb7 : ∀ x : ℚ, (5500 : ℚ) ≤ (fun x => if x ≤ 70000 then 5500 else if x ≤ 80000 then 6000 else if x ≤ 90000 then 8500 else if x ≤ 100000 then 10500 else if x ≤ 150000 then 12500 else if x ≤ 210000 then 20000 else (30000 : ℚ)) x := by
  intro x
  show (5500 : ℚ) ≤ if x ≤ 70000 then 5500 else (fun x => if x ≤ 80000 then 6000 else if x ≤ 90000 then 8500 else if x ≤ 100000 then 10500 else if x ≤ 150000 then 12500 else if x ≤ 210000 then 20000 else (30000 : ℚ)) x
  by_cases h : x ≤ 70000
  · rw [if_pos h]
  · rw [if_neg h]
    exact le_trans (by norm_num) (offLb8 x)

theorem offMono7 : ∀ x y : ℚ, x ≤ y → (fun x => if x ≤ 70000 then 5500 else if x ≤ 80000 then 6000 else if x ≤ 90000 then 8500 else if x ≤ 100000 then 10500 else if x ≤ 150000 then 12500 else if x ≤ 210000 then 20000 else (30000 : ℚ)) x ≤ (fun x => if x ≤ 70000 then 5500 else if x ≤ 80000 then 6000 else if x ≤ 90000 then 8500 else if x ≤ 100000 then 10500 else if x ≤ 150000 then 12500 else if x ≤ 210000 then 20000 else (30000 : ℚ)) y :=
  iteStepMono 70000 5500 (fun x => if x ≤ 80000 then 6000 else if x ≤ 90000 then 8500 else if x ≤ 100000 then 10500 else if x ≤ 150000 then 12500 else if x ≤ 210000 then 20000 else (30000 : ℚ)) offMono8
    (fun x => le_trans (by norm_num) (offLb8 x))

theorem offLb6 : ∀ x : ℚ, (4000 : ℚ) ≤ (fun x => if x ≤ 60000 then 4000 else if x ≤ 70000 then 5500 else if x ≤ 80000 then 6000 else if x ≤ 90000 then 8500 else if x ≤ 100000 then 10500 else if x ≤ 150000 then 12500 else if x ≤ 210000 then 20000 else (30000 : ℚ)) x := by
  intro x
  show (4000 : ℚ) ≤ if x ≤ 60000 then 4000 else (fun x => if x ≤ 70000 then 5500 else if x ≤ 80000 then 6000 else if x ≤ 90000 then 8500 else if x ≤ 100000 then 10500 else if x ≤ 150000 then 12500 else if x ≤ 210000 then 20000 else (30000 : ℚ)) x
  by_cases h : x ≤ 60000
  · rw [if_pos h]
  · rw [if_neg h]
    exact le_trans (by norm_num) (offLb7 x)

theorem offMono6 : ∀ x y : ℚ, x ≤ y → (fun x => if x ≤ 60000 then 4000 else if x ≤ 70000 then 5500 else if x ≤ 80000 then 6000 else if x ≤ 90000 then 8500 else if x ≤ 100000 then 10500 else if x ≤ 150000 then 12500 else if x ≤ 210000 then 20000 else (30000 : ℚ)) x ≤ (fun x => if x ≤ 60000 then 4000 else if x ≤ 70000 then 5500 else if x ≤ 80000 then 6000 else if x ≤ 90000 then 8500 else if x ≤ 100000 then 10500 else if x ≤ 150000 then 12500 else if x ≤ 210000 then 20000 else (30000 : ℚ)) y :=
  iteStepMono 60000 4000 (fun x => if x ≤ 70000 then 5500 else if x ≤ 80000 then 6000 else if x ≤ 90000 then 8500 else if x ≤ 100000 then 10500 else if x ≤ 150000 then 12500 else if x ≤ 210000 then 20000 else (30000 : ℚ)) offMono7
    (fun x => le_trans (by norm_num) (offLb7 x))

theorem offLb5 : ∀ x : ℚ, (3500 : ℚ) ≤ (fun x => if x ≤ 50000 then 3500 else if x ≤ 60000 then 4000 else if x ≤ 70000 then 5500 else if x ≤ 80000 then 6000 else if x ≤ 90000 then 8500 else if x ≤ 100000 then 10500 else if x ≤ 150000 then 12500 else if x ≤ 210000 then 20000 else (30000 : ℚ)) x := by
  intro x
  show (3500 : ℚ) ≤ if x ≤ 50000 then 3500 else (fun x => if x ≤ 60000 then 4000 else if x ≤ 70000 then 5500 else if x ≤ 80000 then 6000 else if x ≤ 90000 then 8500 else if x ≤ 100000 then 10500 else if x ≤ 150000 then 12500 else if x ≤ 210000 then 20000 else (30000 : ℚ)) x
  by_cases h : x ≤ 50000
  · rw [if_pos h]
  · rw [if_neg h]
    exact le_trans (by norm_num) (offLb6 x)

theorem offMono5 : ∀ x y : ℚ, x ≤ y → (fun x => if x ≤ 50000 then 3500 else if x ≤ 60000 then 4000 else if x ≤ 70000 then 5500 else if x ≤ 80000 then 6000 else if x ≤ 90000 then 8500 else if x ≤ 100000 then 10500 else if x ≤ 150000 then 12500 else if x ≤ 210000 then 20000 else (30000 : ℚ)) x ≤ (fun x => if x ≤ 50000 then 3500 else if x ≤ 60000 then 4000 else if x ≤ 70000 then 5500 else if x ≤ 80000 then 6000 else if x ≤ 90000 then 8500 else if x ≤ 100000 then 10500 else if x ≤ 150000 then 12500 else if x ≤ 210000 then 20000 else (30000 : ℚ)) y :=
  iteStepMono 50000 3500 (fun x => if x ≤ 60000 then 4000 else if x ≤ 70000 then 5500 else if x ≤ 80000 then 6000 else if x ≤ 90000 then 8500 else if x ≤ 100000 then 10500 else if x ≤ 150000 then 12500 else if x ≤ 210000 then 20000 else (30000 : ℚ)) offMono6
    (fun x => le_trans (by norm_num) (offLb6 x))

theorem offLb4 : ∀ x : ℚ, (2900 : ℚ) ≤ (fun x => if x ≤ 40000 then 2900 else if x ≤ 50000 then 3500 else if x ≤ 60000 then 4000 else if x ≤ 70000 then 5500 else if x ≤ 80000 then 6000 else if x ≤ 90000 then 8500 else if x ≤ 100000 then 10500 else if x ≤ 150000 then 12500 else if x ≤ 210000 then 20000 else (30000 : ℚ)) x := by
  intro x
  show (2900 : ℚ) ≤ if x ≤ 40000 then 2900 else (fun x => if x ≤ 50000 then 3500 else if x ≤ 60000 then 4000 else if x ≤ 70000 then 5500 else if x ≤ 80000 then 6000 else if x ≤ 90000 then 8500 else if x ≤ 100000 then 10500 else if x ≤ 150000 then 12500 else if x ≤ 210000 then 20000 else (30000 : ℚ)) x
  by_cases h : x ≤ 40000
  · rw [if_pos h]
  · rw [if_neg h]
    exact le_trans (by norm_num) (offLb5 x)

theorem offMono4 : ∀ x y : ℚ, x ≤ y → (fun x => if x ≤ 40000 then 2900 else if x ≤ 50000 then 3500 else if x ≤ 60000 then 4000 else if x ≤ 70000 then 5500 else if x ≤ 80000 then 6000 else if x ≤ 90000 then 8500 else if x ≤ 100000 then 10500 else if x ≤ 150000 then 12500 else if x ≤ 210000 then 20000 else (30000 : ℚ)) x ≤ (fun x => if x ≤ 40000 then 2900 else if x ≤ 50000 then 3500 else if x ≤ 60000 then 4000 else if x ≤ 70000 then 5500 else if x ≤ 80000 then 6000 else if x ≤ 90000 then 8500 else if x ≤ 100000 then 10500 else if x ≤ 150000 then 12500 else if x ≤ 210000 then 20000 else (30000 : ℚ)) y :=
  iteStepMono 40000 2900 (fun x => if x ≤ 50000 then 3500 else if x ≤ 60000 then 4000 else if x ≤ 70000 then 5500 else if x ≤ 80000 then 6000 else if x ≤ 90000 then 8500 else if x ≤ 100000 then 10500 else if x ≤ 150000 then 12500 else if x ≤ 210000 then 20000 else (30000 : ℚ)) offMono5
    (fun x => le_trans (by norm_num) (offLb5 x))

theorem offLb3 : ∀ x : ℚ, (2200 : ℚ) ≤ (fun x => if x ≤ 30000 then 2200 else if x ≤ 40000 then 2900 else if x ≤ 50000 then 3500 else if x ≤ 60000 then 4000 else if x ≤ 70000 then 5500 else if x ≤ 80000 then 6000 else if x ≤ 90000 then 8500 else if x ≤ 100000 then 10500 else if x ≤ 150000 then 12500 else if x ≤ 210000 then 20000 else (30000 : ℚ)) x := by
  intro x
  show (2200 : ℚ) ≤ if x ≤ 30000 then 2200 else (fun x => if x ≤ 40000 then 2900 else if x ≤ 50000 then 3500 else if x ≤ 60000 then 4000 else if x ≤ 70000 then 5500 else if x ≤ 80000 then 6000 else if x ≤ 90000 then 8500 else if x ≤ 100000 then 10500 else if x ≤ 150000 then 12500 else if x ≤ 210000 then 20000 else (30000 : ℚ)) x
  by_cases h : x ≤ 30000
  · rw [if_pos h]
  · rw [if_neg h]
    exact le_trans (by norm_num) (offLb4 x)

theorem offMono3 : ∀ x y : ℚ, x ≤ y → (fun x => if x ≤ 30000 then 2200 else if x ≤ 40000 then 2900 else if x ≤ 50000 then 3500 else if x ≤ 60000 then 4000 else if x ≤ 70000 then 5500 else if x ≤ 80000 then 6000 else if x ≤ 90000 then 8500 else if x ≤ 100000 then 10500 else if x ≤ 150000 then 12500 else if x ≤ 210000 then 20000 else (30000 : ℚ)) x ≤ (fun x => if x ≤ 30000 then 2200 else if x ≤ 40000 then 2900 else if x ≤ 50000 then 3500 else if x ≤ 60000 then 4000 else if x ≤ 70000 then 5500 else if x ≤ 80000 then 6000 else if x ≤ 90000 then 8500 else if x ≤ 100000 then 10500 else if x ≤ 150000 then 12500 else if x ≤ 210000 then 20000 else (30000 : ℚ)) y :=
  iteStepMono 30000 2200 (fun x => if x ≤ 40000 then 2900 else if x ≤ 50000 then 3500 else if x ≤ 60000 then 4000 else if x ≤ 70000 then 5500 else if x ≤ 80000 then 6000 else if x ≤ 90000 then 8500 else if x ≤ 100000 then 10500 else if x ≤ 150000 then 12500 else if x ≤ 210000 then 20000 else (30000 : ℚ)) offMono4
    (fun x => le_trans (by norm_num) (offLb4 x))

theorem offLb2 : ∀ x : ℚ, (1500 : ℚ) ≤ (fun x => if x ≤ 20000 then 1500 else if x ≤ 30000 then 2200 else if x ≤ 40000 then 2900 else if x ≤ 50000 then 3500 else if x ≤ 60000 then 4000 else if x ≤ 70000 then 5500 else if x ≤ 80000 then 6000 else if x ≤ 90000 then 8500 else if x ≤ 100000 then 10500 else if x ≤ 150000 then 12500 else if x ≤ 210000 then 20000 else (30000 : ℚ)) x := by
  intro x
  show (1500 : ℚ) ≤ if x ≤ 20000 then 1500 else (fun x => if x ≤ 30000 then 2200 else if x ≤ 40000 then 2900 else if x ≤ 50000 then 3500 else if x ≤ 60000 then 4000 else if x ≤ 70000 then 5500 else if x ≤ 80000 then 6000 else if x ≤ 90000 then 8500 else if x ≤ 100000 then 10500 else if x ≤ 150000 then 12500 else if x ≤ 210000 then 20000 else (30000 : ℚ)) x
  by_cases h : x ≤ 20000
  · rw [if_pos h]
  · rw [if_neg h]
    exact le_trans (by norm_num) (offLb3 x)

theorem offMono2 : ∀ x y : ℚ, x ≤ y → (fun x => if x ≤ 20000 then 1500 else if x ≤ 30000 then 2200 else if x ≤ 40000 then 2900 else if x ≤ 50000 then 3500 else if x ≤ 60000 then 4000 else if x ≤ 70000 then 5500 else if x ≤ 80000 then 6000 else if x ≤ 90000 then 8500 else if x ≤ 100000 then 10500 else if x ≤ 150000 then 12500 else if x ≤ 210000 then 20000 else (30000 : ℚ)) x ≤ (fun x => if x ≤ 20000 then 1500 else if x ≤ 30000 then 2200 else if x ≤ 40000 then 2900 else if x ≤ 50000 then 3500 else if x ≤ 60000 then 4000 else if x ≤ 70000 then 5500 else if x ≤ 80000 then 6000 else if x ≤ 90000 then 8500 else if x ≤ 100000 then 10500 else if x ≤ 150000 then 12500 else if x ≤ 210000 then 20000 else (30000 : ℚ)) y :=
  iteStepMono 20000 1500 (fun x => if x ≤ 30000 then 2200 else if x ≤ 40000 then 2900 else if x ≤ 50000 then 3500 else if x ≤ 60000 then 4000 else if x ≤ 70000 then 5500 else if x ≤ 80000 then 6000 else if x ≤ 90000 then 8500 else if x ≤ 100000 then 10500 else if x ≤ 150000 then 12500 else if x ≤ 210000 then 20000 else (30000 : ℚ)) offMono3
    (fun x => le_trans (by norm_num) (offLb3 x))

theorem offLb1 : ∀ x : ℚ, (1000 : ℚ) ≤ (fun x => if x ≤ 10000 then 1000 else if x ≤ 20000 then 1500 else if x ≤ 30000 then 2200 else if x ≤ 40000 then 2900 else if x ≤ 50000 then 3500 else if x ≤ 60000 then 4000 else if x ≤ 70000 then 5500 else if x ≤ 80000 then 6000 else if x ≤ 90000 then 8500 else if x ≤ 100000 then 10500 else if x ≤ 150000 then 12500 else if x ≤ 210000 then 20000 else (30000 : ℚ)) x := by
  intro x
  show (1000 : ℚ) ≤ if x ≤ 10000 then 1000 else (fun x => if x ≤ 20000 then 1500 else if x ≤ 30000 then 2200 else if x ≤ 40000 then 2900 else if x ≤ 50000 then 3500 else if x ≤ 60000 then 4000 else if x ≤ 70000 then 5500 else if x ≤ 80000 then 6000 else if x ≤ 90000 then 8500 else if x ≤ 100000 then 10500 else if x ≤ 150000 then 12500 else if x ≤ 210000 then 20000 else (30000 : ℚ)) x
  by_cases h : x ≤ 10000
  · rw [if_pos h]
  · rw [if_neg h]
    exact le_trans (by norm_num) (offLb2 x)

theorem offMono1 : ∀ x y : ℚ, x ≤ y → (fun x => if x ≤ 10000 then 1000 else if x ≤ 20000 then 1500 else if x ≤ 30000 then 2200 else if x ≤ 40000 then 2900 else if x ≤ 50000 then 3500 else if x ≤ 60000 then 4000 else if x ≤ 70000 then 5500 else if x ≤ 80000 then 6000 else if x ≤ 90000 then 8500 else if x ≤ 100000 then 10500 else if x ≤ 150000 then 12500 else if x ≤ 210000 then 20000 else (30000 : ℚ)) x ≤ (fun x => if x ≤ 10000 then 1000 else if x ≤ 20000 then 1500 else if x ≤ 30000 then 2200 else if x ≤ 40000 then 2900 else if x ≤ 50000 then 3500 else if x ≤ 60000 then 4000 else if x ≤ 70000 then 5500 else if x ≤ 80000 then 6000 else if x ≤ 90000 then 8500 else if x ≤ 100000 then 10500 else if x ≤ 150000 then 12500 else if x ≤ 210000 then 20000 else (30000 : ℚ)) y :=
  iteStepMono 10000 1000 (fun x => if x ≤ 20000 then 1500 else if x ≤ 30000 then 2200 else if x ≤ 40000 then 2900 else if x ≤ 50000 then 3500 else if x ≤ 60000 then 4000 else if x ≤ 70000 then 5500 else if x ≤ 80000 then 6000 else if x ≤ 90000 then 8500 else if x ≤ 100000 then 10500 else if x ≤ 150000 then 12500 else if x ≤ 210000 then 20000 else (30000 : ℚ)) offMono2
    (fun x => le_trans (by norm_num) (offLb2 x))

theorem offLb0 : ∀ x : ℚ, (1000 : ℚ) ≤ (fun x => if x ≤ 0 then 1000 else if x ≤ 10000 then 1000 else if x ≤ 20000 then 1500 else if x ≤ 30000 then 2200 else if x ≤ 40000 then 2900 else if x ≤ 50000 then 3500 else if x ≤ 60000 then 4000 else if x ≤ 70000 then 5500 else if x ≤ 80000 then 6000 else if x ≤ 90000 then 8500 else if x ≤ 100000 then 10500 else if x ≤ 150000 then 12500 else if x ≤ 210000 then 20000 else (30000 : ℚ)) x := by
  intro x
  show (1000 : ℚ) ≤ if x ≤ 0 then 1000 else (fun x => if x ≤ 10000 then 1000 else if x ≤ 20000 then 1500 else if x ≤ 30000 then 2200 else if x ≤ 40000 then 2900 else if x ≤ 50000 then 3500 else if x ≤ 60000 then 4000 else if x ≤ 70000 then 5500 else if x ≤ 80000 then 6000 else if x ≤ 90000 then 8500 else if x ≤ 100000 then 10500 else if x ≤ 150000 then 12500 else if x ≤ 210000 then 20000 else (30000 : ℚ)) x
  by_cases h : x ≤ 0
  · rw [if_pos h]
  · rw [if_neg h]
    exact le_trans (by norm_num) (offLb1 x)

theorem offMono0 : ∀ x y : ℚ, x ≤ y → (fun x => if x ≤ 0 then 1000 else if x ≤ 10000 then 1000 else if x ≤ 20000 then 1500 else if x ≤ 30000 then 2200 else if x ≤ 40000 then 2900 else if x ≤ 50000 then 3500 else if x ≤ 60000 then 4000 else if x ≤ 70000 then 5500 else if x ≤ 80000 then 6000 else if x ≤ 90000 then 8500 else if x ≤ 100000 then 10500 else if x ≤ 150000 then 12500 else if x ≤ 210000 then 20000 else (30000 : ℚ)) x ≤ (fun x => if x ≤ 0 then 1000 else if x ≤ 10000 then 1000 else if x ≤ 20000 then 1500 else if x ≤ 30000 then 2200 else if x ≤ 40000 then 2900 else if x ≤ 50000 then 3500 else if x ≤ 60000 then 4000 else if x ≤ 70000 then 5500 else if x ≤ 80000 then 6000 else if x ≤ 90000 then 8500 else if x ≤ 100000 then 10500 else if x ≤ 150000 then 12500 else if x ≤ 210000 then 20000 else (30000 : ℚ)) y :=
  iteStepMono 0 1000 (fun x => if x ≤ 10000 then 1000 else if x ≤ 20000 then 1500 else if x ≤ 30000 then 2200 else if x ≤ 40000 then 2900 else if x ≤ 50000 then 3500 else if x ≤ 60000 then 4000 else if x ≤ 70000 then 5500 else if x ≤ 80000 then 6000 else if x ≤ 90000 then 8500 else if x ≤ 100000 then 10500 else if x ≤ 150000 then 12500 else if x ≤ 210000 then 20000 else (30000 : ℚ)) offMono1
    (fun x => le_trans (by norm_num) (offLb1 x))

theorem dynamicOffsetTable_mono : ∀ r1 r2 : ℚ, r1 ≤ r2 →
    dynamicOffsetTable r1 ≤ dynamicOffsetTable r2 :=
  fun r1 r2 h => offMono0 r1 r2 h

set_option maxHeartbeats 1000000 in
/-- C2: for a positive candidate rank, the ranker comparator orders two
candidates exactly by anchor-group membership (achievable first, with the
anchor at max(1, rank minus the dynamic offset)), then category precedence,
then closing rank ascending with null as Infinity, then institute name; and
the offset table is monotone, 1000 up to rank 10000 and 30000 past 210000. -/
theorem claim_C2_ranker_comparator_order (userRank : ℚ) (h : 0 < userRank) :
    (∀ a b : Candidate,
      (cmpCandidates (anchorRankFor userRank) a b < 0 ↔
        specPrecedes (anchorRankFor userRank) a b) ∧
      (cmpCandidates (anchorRankFor userRank) a b = 0 ↔
        sameSortKey (anchorRankFor userRank) a b)) ∧
    anchorRankFor userRank = max 1 (userRank - getDynamicAnchorOffset (some userRank)) ∧
    (userRank ≤ 10000 → getDynamicAnchorOffset (some userRank) = 1000) ∧
    (210000 < userRank → getDynamicAnchorOffset (some userRank) = 30000) ∧
    (∀ r2 : ℚ, userRank ≤ r2 →
      getDynamicAnchorOffset (some userRank) ≤ getDynamicAnchorOffset (some r2)) := by
  refine ⟨fun a b => ⟨cmpCandidates_lt_iff _ a b, cmpCandidates_eq_zero_iff _ a b⟩,
    rfl, ?_, ?_, ?_⟩
  · intro h1
    show dynamicOffsetTable userRank = 1000
    unfold dynamicOffsetTable
    rw [if_neg (not_le.mpr h), if_pos h1]
  · intro h1
    show dynamicOffsetTable userRank = 30000
    unfold dynamicOffsetTable
    rw [if_neg (by linarith), if_neg (by linarith), if_neg (by linarith),
      if_neg (by linarith), if_neg (by linarith), if_neg (by linarith),
      if_neg (by linarith), if_neg (by linarith), if_neg (by linarith),
      if_neg (by linarith), if_neg (by linarith), if_neg (by linarith),
      if_neg (by linarith)]
  · intro r2 hr2
    show dynamicOffsetTable userRank ≤ dynamicOffsetTable r2
    exact dynamicOffsetTable_mono userRank r2 hr2

/-- C2 witness at rank 5000 and two concrete candidates. -/
theorem claim_C2_ranker_comparator_order_witness :
    getDynamicAnchorOffset (some (5000 : ℚ)) = 1000 ∧
    (cmpCandidates (anchorRankFor 5000) ⟨"A", "p", some 100, "IIT"⟩
        ⟨"B", "q", none, "NIT"⟩ < 0 ↔
      specPrecedes (anchorRankFor 5000) ⟨"A", "p", some 100, "IIT"⟩
        ⟨"B", "q", none, "NIT"⟩) :=
  ⟨(claim_C2_ranker_comparator_order 5000 (by decide)).2.2.1 (by decide),
   ((claim_C2_ranker_comparator_order 5000 (by decide)).1
      ⟨"A", "p", some 100, "IIT"⟩ ⟨"B", "q", none, "NIT"⟩).1⟩

theorem sortKeyLe_trans (anchor : ℚ) (a b c : Candidate)
    (h1 : specPrecedes anchor a b ∨ sameSortKey anchor a b)
    (h2 : specPrecedes anchor b c ∨ sameSortKey anchor b c) :
    specPrecedes anchor a c ∨ sameSortKey anchor a c := by
  unfold specPrecedes sameSortKey at h1 h2 ⊢
  rcases h1 with (hgs1 | ⟨hgi1, ht1⟩) | ⟨hgi1, hte1⟩
  · rcases h2 with (hgs2 | ⟨hgi2, -⟩) | ⟨hgi2, -⟩
    · exact Or.inl (Or.inl ⟨hgs1.1, hgs2.2⟩)
    · exact Or.inl (Or.inl ⟨hgs1.1, fun hc => hgs1.2 (hgi2.mpr hc)⟩)
    · exact Or.inl (Or.inl ⟨hgs1.1, fun hc => hgs1.2 (hgi2.mpr hc)⟩)
  · rcases h2 with (hgs2 | ⟨hgi2, ht2⟩) | ⟨hgi2, hte2⟩
    · exact Or.inl (Or.inl ⟨hgi1.mpr hgs2.1, hgs2.2⟩)
    · refine Or.inl (Or.inr ⟨hgi1.trans hgi2, ?_⟩)
      rcases ht1 with hT1 | ⟨hTe1, hin1⟩
      · rcases ht2 with hT2 | ⟨hTe2, -⟩
        · exact Or.inl (lt_trans hT1 hT2)
        · exact Or.inl (hTe2 ▸ hT1)
      · rcases ht2 with hT2 | ⟨hTe2, hin2⟩
        · exact Or.inl (hTe1 ▸ hT2)
        · refine Or.inr ⟨hTe1.trans hTe2, ?_⟩
          rcases hin1 with hC1 | ⟨hCe1, hS1⟩
          · rcases hin2 with hC2 | ⟨hCe2, -⟩
            · exact Or.inl (lt_trans hC1 hC2)
            · exact Or.inl (hCe2 ▸ hC1)
          · rcases hin2 with hC2 | ⟨hCe2, hS2⟩
            · exact Or.inl (hCe1 ▸ hC2)
            · exact Or.inr ⟨hCe1.trans hCe2, charListLt_trans _ _ _ hS1 hS2⟩
    · refine Or.inl (Or.inr ⟨hgi1.trans hgi2, ?_⟩)
      obtain ⟨hTe2, hCe2, hSe2⟩ := hte2
      rcases ht1 with hT1 | ⟨hTe1, hin1⟩
      · exact Or.inl (hTe2 ▸ hT1)
      · refine Or.inr ⟨hTe1.trans hTe2, ?_⟩
        rcases hin1 with hC1 | ⟨hCe1, hS1⟩
        · exact Or.inl (hCe2 ▸ hC1)
        · exact Or.inr ⟨hCe1.trans hCe2, hSe2 ▸ hS1⟩
  · rcases h2 with (hgs2 | ⟨hgi2, ht2⟩) | ⟨hgi2, hte2⟩
    · exact Or.inl (Or.inl ⟨hgi1.mpr hgs2.1, hgs2.2⟩)
    · obtain ⟨hTe1, hCe1, hSe1⟩ := hte1
      refine Or.inl (Or.inr ⟨hgi1.trans hgi2, ?_⟩)
      rcases ht2 with hT2 | ⟨hTe2, hin2⟩
      · exact Or.inl (hTe1 ▸ hT2)
      · refine Or.inr ⟨hTe1.trans hTe2, ?_⟩
        rcases hin2 with hC2 | ⟨hCe2, hS2⟩
        · exact Or.inl (hCe1 ▸ hC2)
        · exact Or.inr ⟨hCe1.trans hCe2, hSe1 ▸ hS2⟩
    · obtain ⟨hTe1, hCe1, hSe1⟩ := hte1
      obtain ⟨hTe2, hCe2, hSe2⟩ := hte2
      exact Or.inr ⟨hgi1.trans hgi2,
        hTe1.trans hTe2, hCe1.trans hCe2, hSe1.trans hSe2⟩

theorem cmpCandidates_le_iff (anchor : ℚ) (a b : Candidate) :
    cmpCandidates anchor a b ≤ 0 ↔
      specPrecedes anchor a b ∨ sameSortKey anchor a b := by
  constructor
  · intro h
    rcases lt_or_eq_of_le h with h | h
    · exact Or.inl ((cmpCandidates_lt_iff anchor a b).mp h)
    · exact Or.inr ((cmpCandidates_eq_zero_iff anchor a b).mp h)
  · rintro (h | h)
    · exact le_of_lt ((cmpCandidates_lt_iff anchor a b).mpr h)
    · exact le_of_eq ((cmpCandidates_eq_zero_iff anchor a b).mpr h)

theorem rankLe_trans (anchor : ℚ) (a b c : Candidate)
    (h1 : decide (cmpCandidates anchor a b ≤ 0) = true)
    (h2 : decide (cmpCandidates anchor b c ≤ 0) = true) :
    decide (cmpCandidates anchor a c ≤ 0) = true := by
  rw [decide_eq_true_eq, cmpCandidates_le_iff] at h1 h2 ⊢
  exact sortKeyLe_trans anchor a b c h1 h2

theorem rankLe_total (anchor : ℚ) (a b : Candidate) :
    decide (cmpCandidates anchor a b ≤ 0) = true ∨
      decide (cmpCandidates anchor b a ≤ 0) = true := by
  rw [decide_eq_true_eq, decide_eq_true_eq, cmpCandidates_antisymm]
  omega

/-- C7 counterexample: two distinct candidates (same institute, closing
rank and category, different program names) compare equal, the stable sort
preserves their input order, and the two permutations of the same multiset
produce different output orders. -/
theorem claim_C7_counterexample_tie_not_deterministic :
    ([⟨"X", "progA", some 100, "IIT"⟩, ⟨"X", "progB", some 100, "IIT"⟩] :
        List Candidate).Perm
      [⟨"X", "progB", some 100, "IIT"⟩, ⟨"X", "progA", some 100, "IIT"⟩] ∧
    (⟨"X", "progA", some 100, "IIT"⟩ : Candidate) ≠ ⟨"X", "progB", some 100, "IIT"⟩ ∧
    rankCandidates 5000
        [⟨"X", "progA", some 100, "IIT"⟩, ⟨"X", "progB", some 100, "IIT"⟩] ≠
      rankCandidates 5000
        [⟨"X", "progB", some 100, "IIT"⟩, ⟨"X", "progA", some 100, "IIT"⟩] := by
  have hab : cmpCandidates (anchorRankFor 5000) ⟨"X", "progA", some 100, "IIT"⟩
      ⟨"X", "progB", some 100, "IIT"⟩ = 0 :=
    (cmpCandidates_eq_zero_iff _ _ _).mpr ⟨Iff.rfl, rfl, rfl, rfl⟩
  have hba : cmpCandidates (anchorRankFor 5000) ⟨"X", "progB", some 100, "IIT"⟩
      ⟨"X", "progA", some 100, "IIT"⟩ = 0 :=
    (cmpCandidates_eq_zero_iff _ _ _).mpr ⟨Iff.rfl, rfl, rfl, rfl⟩
  have h1 : rankCandidates 5000
      [⟨"X", "progA", some 100, "IIT"⟩, ⟨"X", "progB", some 100, "IIT"⟩] =
      [⟨"X", "progA", some 100, "IIT"⟩, ⟨"X", "progB", some 100, "IIT"⟩] := by
    unfold rankCandidates
    simp [jsSortBy, jsInsert, hab]
  have h2 : rankCandidates 5000
      [⟨"X", "progB", some 100, "IIT"⟩, ⟨"X", "progA", some 100, "IIT"⟩] =
      [⟨"X", "progB", some 100, "IIT"⟩, ⟨"X", "progA", some 100, "IIT"⟩] := by
    unfold rankCandidates
    simp [jsSortBy, jsInsert, hba]
  refine ⟨List.Perm.swap _ _ _, by decide, ?_⟩
  rw [h1, h2]
  decide

/-- C7 amended: the ranker comparator is a total preorder, so the sort is
deterministic for a fixed input; two permutations of the same multiset give
the identical output provided no two distinct candidates share the full
sort key (group, category, closing rank, institute name). Ties between
key-equal distinct candidates are resolved by input order. -/
theorem claim_C7_deterministic_up_to_key_ties (userRank : ℚ) (l1 l2 : List Candidate)
    (hperm : l1.Perm l2)
    (hinj : ∀ a ∈ l1, ∀ b ∈ l1, sameSortKey (anchorRankFor userRank) a b → a = b) :
    rankCandidates userRank l1 = rankCandidates userRank l2 := by
  unfold rankCandidates
  apply perm_pairwise_eq
  · exact (jsSortBy_perm _ l1).trans (hperm.trans (jsSortBy_perm _ l2).symm)
  · exact jsSortBy_pairwise (rankLe_trans _) (rankLe_total _) l1
  · exact jsSortBy_pairwise (rankLe_trans _) (rankLe_total _) l2
  · intro a ha b hb hab hba
    have ha1 : a ∈ l1 := (jsSortBy_perm _ l1).mem_iff.mp ha
    have hb1 : b ∈ l1 := (jsSortBy_perm _ l1).mem_iff.mp hb
    rw [decide_eq_true_eq] at hab hba
    have h0 : cmpCandidates (anchorRankFor userRank) a b = 0 := by
      have := cmpCandidates_antisymm (anchorRankFor userRank) a b
      omega
    exact hinj a ha1 b hb1 ((cmpCandidates_eq_zero_iff _ a b).mp h0)

/-- C7 amended witness: a singleton list permuted to itself. -/
theorem claim_C7_deterministic_up_to_key_ties_witness :
    rankCandidates 5000 [(⟨"A", "p", some 10, "IIT"⟩ : Candidate)] =
      rankCandidates 5000 [(⟨"A", "p", some 10, "IIT"⟩ : Candidate)] :=
  claim_C7_deterministic_up_to_key_ties 5000 _ _ (List.Perm.refl _) (by simp)

theorem sortYearDesc_of_sorted {l : List HistEntry}
    (h : l.Pairwise (fun a b => b.year ≤ a.year)) :
    jsSortBy (fun a b => decide (b.year - a.year ≤ 0)) l = l :=
  jsSortBy_of_pairwise (h.imp (fun hab => by rw [decide_eq_true_eq]; omega))

theorem weightedSums_all_none :
    ∀ {l : List HistEntry}, (∀ e ∈ l, e.closeRank = none) →
      ∀ i : ℕ, weightedSums l i = (0, 0) := by
  intro l
  induction l with
  | nil => intro _ i; rfl
  | cons e t ih =>
    intro h i
    have he := h e (List.mem_cons_self e t)
    show (match e.closeRank with
      | some r => (r * weightAt i + (weightedSums t (i + 1)).1,
          weightAt i + (weightedSums t (i + 1)).2)
      | none => weightedSums t (i + 1)) = (0, 0)
    rw [he]
    exact ih (fun x hx => h x (List.mem_cons_of_mem e hx)) (i + 1)

theorem weightAt_pos (i : ℕ) : 0 < weightAt i := by
  unfold weightAt recencyWeights
  match i with
  | 0 => norm_num
  | 1 => norm_num
  | 2 => norm_num
  | 3 => norm_num
  | 4 => norm_num
  | n + 5 =>
    rw [List.getD_eq_default]
    · norm_num
    · simp

theorem weightedSums_snd_nonneg :
    ∀ (l : List HistEntry) (i : ℕ), 0 ≤ (weightedSums l i).2 := by
  intro l
  induction l with
  | nil => intro i; exact le_refl 0
  | cons e t ih =>
    intro i
    show (0 : ℚ) ≤ (match e.closeRank with
      | some r => (r * weightAt i + (weightedSums t (i + 1)).1,
          weightAt i + (weightedSums t (i + 1)).2)
      | none => weightedSums t (i + 1)).2
    cases e.closeRank with
    | some r =>
      have := weightAt_pos i
      have := ih (i + 1)
      simp only []
      linarith
    | none => exact ih (i + 1)

theorem weightedSums_snd_pos :
    ∀ {l : List HistEntry}, (∃ e ∈ l, e.closeRank.isSome = true) →
      ∀ i : ℕ, 0 < (weightedSums l i).2 := by
  intro l
  induction l with
  | nil => rintro ⟨e, he, -⟩; exact absurd he (List.not_mem_nil e)
  | cons e t ih =>
    rintro ⟨x, hx, hxs⟩ i
    show (0 : ℚ) < (match e.closeRank with
      | some r => (r * weightAt i + (weightedSums t (i + 1)).1,
          weightAt i + (weightedSums t (i + 1)).2)
      | none => weightedSums t (i + 1)).2
    rcases List.mem_cons.mp hx with rfl | hx
    · rw [Option.isSome_iff_exists] at hxs
      obtain ⟨r, hr⟩ := hxs
      rw [hr]
      have := weightAt_pos i
      have := weightedSums_snd_nonneg t (i + 1)
      simp only []
      linarith
    · cases he : e.closeRank with
      | some r =>
        have := weightAt_pos i
        have := ih ⟨x, hx, hxs⟩ (i + 1)
        simp only []
        linarith
      | none => exact ih ⟨x, hx, hxs⟩ (i + 1)

theorem filterMap_closeRank_length :
    ∀ {l : List HistEntry}, (∀ e ∈ l, e.closeRank.isSome = true) →
      (l.filterMap (fun h => h.closeRank)).length = l.length := by
  intro l
  induction l with
  | nil => intro _; rfl
  | cons e t ih =>
    intro h
    have he := h e (List.mem_cons_self e t)
    rw [Option.isSome_iff_exists] at he
    obtain ⟨r, hr⟩ := he
    rw [List.filterMap_cons, hr]
    simp only [List.length_cons]
    rw [ih (fun x hx => h x (List.mem_cons_of_mem e hx))]

theorem recencyWeights_drop (i : ℕ) (h : i < 5) :
    recencyWeights.drop i = weightAt i :: recencyWeights.drop (i + 1) := by
  unfold weightAt recencyWeights
  interval_cases i <;> rfl

theorem weightedSums_eq_spec :
    ∀ {l : List HistEntry}, (∀ e ∈ l, e.closeRank.isSome = true) →
      ∀ i : ℕ, l.length + i ≤ 5 →
        weightedSums l i =
          ((List.zipWith (fun r w => r * w) (l.filterMap (fun h => h.closeRank))
              (recencyWeights.drop i)).sum,
            ((recencyWeights.drop i).take l.length).sum) := by
  intro l
  induction l with
  | nil => intro _ i _; simp [weightedSums]
  | cons e t ih =>
    intro hv i hlen
    have he := hv e (List.mem_cons_self e t)
    rw [Option.isSome_iff_exists] at he
    obtain ⟨r, hr⟩ := he
    have hi : i < 5 := by
      simp only [List.length_cons] at hlen
      omega
    have hdrop := recencyWeights_drop i hi
    have ht := ih (fun x hx => hv x (List.mem_cons_of_mem e hx)) (i + 1)
      (by simp only [List.length_cons] at hlen; omega)
    show (match e.closeRank with
      | some r => (r * weightAt i + (weightedSums t (i + 1)).1,
          weightAt i + (weightedSums t (i + 1)).2)
      | none => weightedSums t (i + 1)) = _
    rw [hr]
    simp only [List.filterMap_cons, hr, hdrop, List.zipWith_cons_cons, List.sum_cons,
      List.length_cons, List.take_succ_cons, ht]

theorem momentumAdjusted_eq_spec (l : List HistEntry) (base : ℚ) :
    momentumAdjusted l base = base + specMomentum l base := by
  match l with
  | [] => simp [momentumAdjusted, specMomentum]
  | [x] => simp [momentumAdjusted, specMomentum]
  | latest :: previous :: rest =>
    unfold momentumAdjusted specMomentum
    cases hl : latest.closeRank with
    | none => simp [hl]
    | some lr =>
      cases hp : previous.closeRank with
      | none => simp [hl, hp]
      | some pr =>
        simp only [hl, hp]
        by_cases hpr : 0 < pr
        · rw [if_pos hpr, if_neg (not_le.mpr hpr)]
          by_cases habs : (0.03 : ℚ) < |(lr - pr) / pr|
          · rw [if_pos habs, if_neg (not_le.mpr habs)]
            by_cases hc : lr - pr < 0
            · rw [if_pos hc, if_pos (by linarith : lr < pr)]
            · by_cases hc2 : 0 < lr - pr
              · rw [if_neg hc, if_pos hc2, if_neg (by linarith : ¬ lr < pr),
                  if_pos (by linarith : pr < lr)]
              · rw [if_neg hc, if_neg hc2, if_neg (by linarith : ¬ lr < pr),
                  if_neg (by linarith : ¬ pr < lr), add_zero]
          · rw [if_neg habs, if_pos (not_lt.mp habs), add_zero]
        · rw [if_neg hpr, if_pos (not_lt.mp hpr), add_zero]

theorem cpd_eq_mainPrediction (u : Option ℚ) (l : List HistEntry)
    (hne : l ≠ []) (hsort : l.Pairwise (fun a b => b.year ≤ a.year))
    (hW : (weightedSums (l.take 5) 0).2 ≠ 0) :
    calculatePredictionDetails u l = mainPrediction u l := by
  unfold calculatePredictionDetails
  rw [if_neg hne]
  simp only [sortYearDesc_of_sorted hsort]
  rw [if_neg hW]

/-- C9: an empty historical list yields the defined no-data result (null
projection, probability 0, confidence none), and a non-empty list whose
entries are all null yields the defined zero-weight result (null
projection, probability 0, confidence very low); both carry an explanatory
message. -/
theorem claim_C9_degenerate_inputs_defined (u : Option ℚ) :
    ((calculatePredictionDetails u []).projectedRank = none ∧
      (calculatePredictionDetails u []).probability = 0 ∧
      (calculatePredictionDetails u []).confidence = "none" ∧
      (calculatePredictionDetails u []).message = "No historical data for projection.") ∧
    (∀ l : List HistEntry, l ≠ [] → (∀ e ∈ l, e.closeRank = none) →
      (calculatePredictionDetails u l).projectedRank = none ∧
      (calculatePredictionDetails u l).probability = 0 ∧
      (calculatePredictionDetails u l).confidence = "very low" ∧
      (calculatePredictionDetails u l).message =
        "Insufficient valid historical data for projection.") := by
  constructor
  · refine ⟨?_, ?_, ?_, ?_⟩ <;> simp [calculatePredictionDetails]
  · intro l hne hnone
    have hW : ∀ le : HistEntry → HistEntry → Bool,
        (weightedSums ((jsSortBy le l).take 5) 0).2 = 0 := fun le => by
      rw [weightedSums_all_none
        (fun e he => hnone e ((jsSortBy_perm le l).mem_iff.mp (List.take_subset 5 _ he))) 0]
    refine ⟨?_, ?_, ?_, ?_⟩ <;> simp [calculatePredictionDetails, hne, hW]

/-- C9 witness at a concrete all-null singleton history. -/
theorem claim_C9_degenerate_inputs_defined_witness :
    (calculatePredictionDetails (some 5000) [⟨2023, 1, none⟩]).probability = 0 ∧
    (calculatePredictionDetails (some 5000) [⟨2023, 1, none⟩]).confidence = "very low" :=
  ⟨((claim_C9_degenerate_inputs_defined (some 5000)).2 [⟨2023, 1, none⟩]
      (by decide) (by decide)).2.1,
   ((claim_C9_degenerate_inputs_defined (some 5000)).2 [⟨2023, 1, none⟩]
      (by decide) (by decide)).2.2.1⟩

/-- C3: on a non-empty aggregated series (year-descending, all closing
ranks valid) the projected rank is the recency-weighted mean of the up-to-5
most recent closing ranks plus the clamped momentum adjustment, floored at
1 and rounded. -/
theorem claim_C3_rank_projector (u : Option ℚ) (l : List HistEntry)
    (hne : l ≠ [])
    (hsort : l.Pairwise (fun a b => b.year ≤ a.year))
    (hv : ∀ e ∈ l, e.closeRank.isSome = true) :
    (calculatePredictionDetails u l).projectedRank =
      some (((max 1 (round (specBaseProjection l +
        specMomentum l (specBaseProjection l))) : ℤ) : ℚ)) := by
  have hex : ∃ e ∈ l.take 5, e.closeRank.isSome = true := by
    cases l with
    | nil => exact absurd rfl hne
    | cons e t => exact ⟨e, by simp, hv e (List.mem_cons_self e t)⟩
  have hW : (weightedSums (l.take 5) 0).2 ≠ 0 :=
    ne_of_gt (weightedSums_snd_pos hex 0)
  rw [cpd_eq_mainPrediction u l hne hsort hW]
  have hvt : ∀ e ∈ l.take 5, e.closeRank.isSome = true :=
    fun e he => hv e (List.take_subset 5 l he)
  have hws := weightedSums_eq_spec hvt 0
    (by have := List.length_take_le 5 l; omega)
  have hbase : (weightedSums (l.take 5) 0).1 / (weightedSums (l.take 5) 0).2 =
      specBaseProjection l := by
    rw [hws]
    simp only [specBaseProjection, List.drop_zero]
    rw [filterMap_closeRank_length hvt]
  show some (((max 1 (round (momentumAdjusted l
      ((weightedSums (l.take 5) 0).1 / (weightedSums (l.take 5) 0).2))) : ℤ) : ℚ)) = _
  rw [hbase, momentumAdjusted_eq_spec]

/-- C3 witness on a concrete two-year series. -/
theorem claim_C3_rank_projector_witness :
    (calculatePredictionDetails (some 5000)
        [⟨2023, 6, some 4000⟩, ⟨2022, 6, some 4500⟩]).projectedRank =
      some (((max 1 (round (specBaseProjection
          [⟨2023, 6, some 4000⟩, ⟨2022, 6, some 4500⟩] +
        specMomentum [⟨2023, 6, some 4000⟩, ⟨2022, 6, some 4500⟩]
          (specBaseProjection [⟨2023, 6, some 4000⟩, ⟨2022, 6, some 4500⟩]))) : ℤ) : ℚ)) :=
  claim_C3_rank_projector (some 5000) [⟨2023, 6, some 4000⟩, ⟨2022, 6, some 4500⟩]
    (by decide) (by decide) (by decide)

theorem mainPrediction_projectedRank (u : Option ℚ) (l : List HistEntry) :
    (mainPrediction u l).projectedRank =
      some (((max 1 (round (momentumAdjusted l
        ((weightedSums (l.take 5) 0).1 / (weightedSums (l.take 5) 0).2))) : ℤ) : ℚ)) := rfl

theorem confidenceFor_eq_table (nPoints : ℕ) (relativeStdDev : ℝ) :
    confidenceFor nPoints relativeStdDev = confidenceTable nPoints relativeStdDev := rfl

theorem mainPrediction_confidence (u : Option ℚ) (l : List HistEntry)
    (hlen : 0 < (l.filterMap (fun h => h.closeRank)).length) :
    (mainPrediction u l).confidence =
      confidenceTable (l.filterMap (fun h => h.closeRank)).length
        (calculateStandardDeviation
            ((l.filterMap (fun h => h.closeRank)).map (fun q : ℚ => (q : ℝ))) /
          (((max 1 (round (momentumAdjusted l
              ((weightedSums (l.take 5) 0).1 / (weightedSums (l.take 5) 0).2))) : ℤ) : ℚ) : ℝ)) := by
  have hppos : (0 : ℤ) < max 1 (round (momentumAdjusted l
      ((weightedSums (l.take 5) 0).1 / (weightedSums (l.take 5) 0).2))) :=
    lt_of_lt_of_le zero_lt_one (le_max_left 1 _)
  have hstep : (mainPrediction u l).confidence =
      confidenceFor (l.filterMap (fun h => h.closeRank)).length
        (if 0 < (l.filterMap (fun h => h.closeRank)).length ∧
            (0 : ℤ) < max 1 (round (momentumAdjusted l
              ((weightedSums (l.take 5) 0).1 / (weightedSums (l.take 5) 0).2))) then
          calculateStandardDeviation
              ((l.filterMap (fun h => h.closeRank)).map (fun q : ℚ => (q : ℝ))) /
            (((max 1 (round (momentumAdjusted l
                ((weightedSums (l.take 5) 0).1 /
                  (weightedSums (l.take 5) 0).2))) : ℤ) : ℚ) : ℝ)
        else 1) := rfl
  rw [hstep, if_pos ⟨hlen, hppos⟩, confidenceFor_eq_table]

/-- C4: whenever the projection is produced (some valid closing rank among
the 5 most recent entries of the year-descending series), the confidence
label is the canonical table applied to the number of valid closing ranks
and the relative standard deviation, and in particular it is never very
high with fewer than 4 points. -/
theorem claim_C4_confidence_table (u : Option ℚ) (l : List HistEntry)
    (hne : l ≠ [])
    (hsort : l.Pairwise (fun a b => b.year ≤ a.year))
    (hv5 : ∃ e ∈ l.take 5, e.closeRank.isSome = true) :
    ((calculatePredictionDetails u l).confidence =
      confidenceTable (nPointsOf l) (relativeStdDevOf u l)) ∧
    (nPointsOf l < 4 → (calculatePredictionDetails u l).confidence ≠ "very high") := by
  have hW : (weightedSums (l.take 5) 0).2 ≠ 0 :=
    ne_of_gt (weightedSums_snd_pos hv5 0)
  have hmain := cpd_eq_mainPrediction u l hne hsort hW
  obtain ⟨e5, he5, hse⟩ := hv5
  have hmem : e5 ∈ l := List.take_subset 5 l he5
  obtain ⟨r5, hr5⟩ := Option.isSome_iff_exists.mp hse
  have hlen : 0 < (l.filterMap (fun h => h.closeRank)).length := by
    have hm : r5 ∈ l.filterMap (fun h => h.closeRank) :=
      List.mem_filterMap.mpr ⟨e5, hmem, hr5⟩
    exact List.length_pos.mpr (List.ne_nil_of_mem hm)
  have hrsd : relativeStdDevOf u l =
      calculateStandardDeviation
          ((l.filterMap (fun h => h.closeRank)).map (fun q : ℚ => (q : ℝ))) /
        (((max 1 (round (momentumAdjusted l
            ((weightedSums (l.take 5) 0).1 / (weightedSums (l.take 5) 0).2))) : ℤ) : ℚ) : ℝ) := by
    unfold relativeStdDevOf
    rw [hmain, mainPrediction_projectedRank]
    rfl
  have hconf : (calculatePredictionDetails u l).confidence =
      confidenceTable (nPointsOf l) (relativeStdDevOf u l) := by
    rw [hmain, mainPrediction_confidence u l hlen, hrsd]
    rfl
  refine ⟨hconf, ?_⟩
  intro h4
  rw [hconf]
  unfold confidenceTable
  rw [if_neg (by omega)]
  split_ifs <;> simp

/-- C4 witness on a concrete single-point series. -/
theorem claim_C4_confidence_table_witness :
    (calculatePredictionDetails (some 5000) [⟨2023, 6, some 4000⟩]).confidence =
      confidenceTable (nPointsOf [⟨2023, 6, some 4000⟩])
        (relativeStdDevOf (some 5000) [⟨2023, 6, some 4000⟩]) ∧
    (calculatePredictionDetails (some 5000) [⟨2023, 6, some 4000⟩]).confidence ≠
      "very high" := by
  have h := claim_C4_confidence_table (some 5000) [⟨2023, 6, some 4000⟩]
    (by decide) (by decide) (by decide)
  exact ⟨h.1, h.2 (by decide)⟩

theorem toUpper_of_toLower_i (c : Char) (h : c.toLower = 'i') : c.toUpper = 'I' := by
  unfold Char.toLower at h
  by_cases hc : c.toNat ≥ 65 ∧ c.toNat ≤ 90
  · rw [if_pos hc] at h
    have hvalid : (c.toNat + 32).isValidChar := Or.inl (by omega)
    have htn : (Char.ofNat (c.toNat + 32)).toNat = c.toNat + 32 := by
      unfold Char.ofNat
      rw [dif_pos hvalid]
      rfl
    have h105 : c.toNat + 32 = 105 := by
      rw [← htn, h]
      rfl
    have hc73 : c.toNat = 73 := by omega
    have hofn := Char.ofNat_toNat c
    rw [hc73] at hofn
    rw [← hofn]
    decide
  · rw [if_neg hc] at h
    subst h
    decide

theorem isPrefixOf_exists : ∀ p l : List Char, p.isPrefixOf l = true → ∃ t, l = p ++ t := by
  intro p
  induction p with
  | nil => intro l _; exact ⟨l, rfl⟩
  | cons a ps ih =>
    intro l h
    cases l with
    | nil => simp [List.isPrefixOf] at h
    | cons b ls =>
      simp only [List.isPrefixOf, Bool.and_eq_true, beq_iff_eq] at h
      obtain ⟨t, ht⟩ := ih ls h.2
      exact ⟨t, by rw [h.1, ht]; rfl⟩

theorem map_eq_cons4 {f : Char → Char} {l : List Char} {a b c d : Char} {r : List Char}
    (h : l.map f = a :: b :: c :: d :: r) :
    ∃ c1 c2 c3 c4 t, l = c1 :: c2 :: c3 :: c4 :: t ∧
      f c1 = a ∧ f c2 = b ∧ f c3 = c ∧ f c4 = d ∧ t.map f = r := by
  cases l with
  | nil => simp at h
  | cons x1 l1 =>
    cases l1 with
    | nil => simp at h
    | cons x2 l2 =>
      cases l2 with
      | nil => simp at h
      | cons x3 l3 =>
        cases l3 with
        | nil => simp at h
        | cons x4 l4 =>
          simp only [List.map_cons, List.cons.injEq] at h
          exact ⟨x1, x2, x3, x4, l4, rfl, h.1, h.2.1, h.2.2.1, h.2.2.2.1, h.2.2.2.2⟩

/-- C8 amended: a string whose trimmed lowercase form starts with iiit and
is not the exact IIIT short code is classified IIIT, provided its lowercase
form does not contain one of the earlier-checked substrings (the IIT long
name, the NIT long name, or iiest, shibpur), which take precedence in the
source. -/
theorem claim_C8_iiit_classification (s : List Char)
    (h1 : jsStartsWith (jsToLower (jsTrim s)) "iiit".data = true)
    (h2 : jsToUpper (jsTrim s) ≠ "IIIT".data)
    (h3 : jsIncludes (jsToLower (jsTrim s)) "indian institute of technology".data = false)
    (h4 : jsIncludes (jsToLower (jsTrim s)) "national institute of technology".data = false)
    (h5 : jsIncludes (jsToLower (jsTrim s)) "iiest, shibpur".data = false) :
    getInstituteType (some s) = "IIIT".data := by
  obtain ⟨rest, hrest⟩ := isPrefixOf_exists _ _ h1
  have hrest2 : (jsTrim s).map Char.toLower = 'i' :: 'i' :: 'i' :: 't' :: rest := hrest
  obtain ⟨c1, c2, c3, c4, t5, hdec, hl1, hl2, hl3, hl4, hmaprest⟩ := map_eq_cons4 hrest2
  have hs : s ≠ [] := by
    rintro rfl
    revert h1
    decide
  have hIIT : jsToUpper (jsTrim s) ≠ "IIT".data := by
    intro hcontra
    unfold jsToUpper at hcontra
    rw [hdec, (rfl : "IIT".data = ['I', 'I', 'T'])] at hcontra
    simp at hcontra
  have hNIT : jsToUpper (jsTrim s) ≠ "NIT".data := by
    intro hcontra
    unfold jsToUpper at hcontra
    rw [hdec, (rfl : "NIT".data = ['N', 'I', 'T'])] at hcontra
    simp at hcontra
  have hGFTI : jsToUpper (jsTrim s) ≠ "GFTI".data := by
    intro hcontra
    unfold jsToUpper at hcontra
    rw [hdec, (rfl : "GFTI".data = ['G', 'F', 'T', 'I'])] at hcontra
    simp only [List.map_cons, List.cons.injEq] at hcontra
    have hg := hcontra.1
    rw [toUpper_of_toLower_i c1 hl1] at hg
    exact absurd hg (by decide)
  have hiitS : jsStartsWith (jsToLower (jsTrim s)) "iit".data = false := by
    unfold jsStartsWith jsToLower
    rw [hrest2, (rfl : "iit".data = ['i', 'i', 't'])]
    have htf : ('t' == 'i') = false := by decide
    simp [List.isPrefixOf, htf]
  have hnitS : jsStartsWith (jsToLower (jsTrim s)) "nit".data = false := by
    unfold jsStartsWith jsToLower
    rw [hrest2, (rfl : "nit".data = ['n', 'i', 't'])]
    have hnf : ('n' == 'i') = false := by decide
    simp [List.isPrefixOf, hnf]
  simp only [getInstituteType]
  rw [if_neg hs, if_neg hIIT, if_neg hNIT, if_neg h2, if_neg hGFTI,
    if_neg (show ¬ ((jsIncludes (jsToLower (jsTrim s))
        "indian institute of technology".data ||
      jsStartsWith (jsToLower (jsTrim s)) "iit".data) = true) by
      rw [h3, hiitS]
      simp),
    if_neg (show ¬ ((jsIncludes (jsToLower (jsTrim s))
        "national institute of technology".data ||
      jsIncludes (jsToLower (jsTrim s)) "iiest, shibpur".data ||
      jsStartsWith (jsToLower (jsTrim s)) "nit".data) = true) by
      rw [h4, h5, hnitS]
      simp),
    if_pos (show (jsIncludes (jsToLower (jsTrim s))
        "indian institute of information technology".data ||
      jsStartsWith (jsToLower (jsTrim s)) "iiit".data) = true by
      rw [h1]
      simp)]

/-- C8 counterexample: this input satisfies the claim's hypotheses (its
trimmed lowercase form starts with iiit and it is not the exact short code
IIIT after uppercasing) yet the classifier returns IIT, because the IIT
long-name substring check runs first. -/
theorem claim_C8_counterexample_iit_long_name :
    jsStartsWith (jsToLower (jsTrim "iiit indian institute of technology".data))
      "iiit".data = true ∧
    jsToUpper (jsTrim "iiit indian institute of technology".data) ≠ "IIIT".data ∧
    getInstituteType (some "iiit indian institute of technology".data) = "IIT".data := by
  refine ⟨by decide, by decide, by decide⟩

/-- C8 amended witness at a concrete institute name. -/
theorem claim_C8_iiit_classification_witness :
    getInstituteType (some "IIIT Delhi".data) = "IIIT".data :=
  claim_C8_iiit_classification "IIIT Delhi".data (by decide) (by decide)
    (by decide) (by decide) (by decide)
